import Mathlib

/-!
# vboxvfs vnode operations (`src/vboxvfs/vboxvfs_vnops.c`)

A shallow embedding of the vnode operations of the VirtualBox shared-folder
file system for FreeBSD, and theorems about them.

Conventions of the embedding

* A `struct vnode` is the pair of its `v_type` and its `v_data`
  (the `struct vboxfs_node` that `VTOVBOXFS` yields).
* A `NULL` pointer is `none`; the `NULL`-terminated chain of
  `sffs_dirents_t` buffers hanging off `sf_dir_list` is a `List`, `sf_next`
  being the tail, so `sf_dir_list == NULL` is `[]`.
* The shared-folder provider (`sfprov_*`, not part of this file) is an
  argument of every operation that calls it: a function giving the provider's
  answer.  Every operation returns, next to its `int` result, the list of
  provider calls it issued, in order.
* `off_t`, `ssize_t`, `time_t` and `int` values are `Int`; unsigned values are
  `Nat`, reduced `% 2 ^ w` where the C code truncates.
-/

namespace VBoxVfs

/-! ## Kernel constants -/

/-- Values of `sys/errno.h`. -/
def ENOENT : Int := 2
def ENXIO : Int := 6
def EFAULT : Int := 14
def ENOTDIR : Int := 20
def EISDIR : Int := 21
def EINVAL : Int := 22
def ENOTTY : Int := 25
def EROFS : Int := 30
def EOPNOTSUPP : Int := 45

/-- The kernel's `VNOVAL` marker of an attribute that is not set. -/
def VNOVAL : Int := -1

/-- The C conversion of a signed value to an unsigned type of `w` bits. -/
def cast_u (w : Nat) (x : Int) : Nat := (x % (2 : Int) ^ w).toNat

/-- File type bits of `sys/stat.h`. -/
def S_IFIFO : Nat := 0o010000
def S_IFCHR : Nat := 0o020000
def S_IFDIR : Nat := 0o040000
def S_IFBLK : Nat := 0o060000
def S_IFREG : Nat := 0o100000
def S_IFLNK : Nat := 0o120000
def S_IFSOCK : Nat := 0o140000

/-- The kernel's `enum vtype`, in declaration order. -/
inductive vtype where
  | VNON | VREG | VDIR | VBLK | VCHR | VLNK | VSOCK | VFIFO | VBAD | VMARKER
  deriving DecidableEq, Repr

/-- The integer value of an `enum vtype` constant. -/
def vtype.toNat : vtype → Nat
  | .VNON => 0 | .VREG => 1 | .VDIR => 2 | .VBLK => 3 | .VCHR => 4
  | .VLNK => 5 | .VSOCK => 6 | .VFIFO => 7 | .VBAD => 8 | .VMARKER => 9

/-! ## Data model -/

structure timespec where
  tv_sec : Int
  tv_nsec : Int
  deriving DecidableEq, Repr

/-- The fields of `sffs_stat_t` this file reads. -/
structure sffs_stat where
  sf_mode : Nat
  sf_size : Nat
  sf_alloc : Nat
  deriving DecidableEq, Repr

/-- The fields of `struct dirent` this file reads. -/
structure dirent where
  d_fileno : Nat
  d_reclen : Nat
  d_name : String
  deriving DecidableEq, Repr

/-- One encoded entry of a listing: `struct sffs_dirent`. -/
structure sffs_dirent where
  sf_stat : sffs_stat
  sf_entry : dirent
  deriving DecidableEq, Repr

/-- One buffer of a listing, `sffs_dirents_t`: `sf_len` bytes of encoded
entries, which `sf_entries` holds in order.  `sf_next` is the rest of the
list the buffer is an element of. -/
structure sffs_dirents where
  sf_len : Nat
  sf_entries : List sffs_dirent
  deriving DecidableEq, Repr

structure vboxfs_mnt where
  sf_handle : Nat
  sf_uid : Nat
  sf_gid : Nat
  deriving DecidableEq, Repr

/-- The node behind a vnode, `struct vboxfs_node`.  `sf_parent` points to
another node, of which only the identifier is ever needed: it is that node's
`sf_ino`.  `sf_file` is the provider's file handle. -/
structure vboxfs_node where
  vboxfsmp : vboxfs_mnt
  sf_path : String
  sf_ino : Nat
  sf_parent : Option Nat
  sf_file : Option Nat
  sf_stat : sffs_stat
  sf_stat_time : Nat
  sf_dir_list : List sffs_dirents
  deriving DecidableEq, Repr

structure vnode where
  v_type : vtype
  v_data : vboxfs_node
  deriving DecidableEq, Repr

/-- The fields of `struct vattr` that `vboxfs_setattr` reads. -/
structure vattr where
  va_flags : Nat
  va_uid : Nat
  va_gid : Nat
  va_atime : timespec
  va_mtime : timespec
  va_ctime : timespec
  va_mode : Nat
  va_size : Nat
  deriving DecidableEq, Repr

/-- The caller's request, `struct uio`, with its single `iovec`: `iov_base`
is the address the next byte goes to. -/
structure uio where
  uio_offset : Int
  uio_resid : Int
  iov_base : Nat
  deriving DecidableEq, Repr

/-- A call to the shared-folder provider, with its arguments. -/
inductive sfprov_call where
  | sfprov_open (mnt : Nat) (path : String)
  | sfprov_close (fp : Nat)
  | sfprov_read (fp : Nat) (buffer : Nat) (offset : Nat) (numbytes : Nat)
  | sfprov_readdir (mnt : Nat) (path : String)
  | sfprov_set_attr (mnt : Nat) (path : String) (mode : Nat)
      (atime mtime ctime : timespec)
  deriving DecidableEq, Repr

/-- What an operation that touches only the node hands back: its `int`
result, the node afterwards, and the provider calls it made. -/
structure op_result where
  error : Int
  np : vboxfs_node
  calls : List sfprov_call
  deriving DecidableEq, Repr

/-- The provider's state after a sequence of calls, for any provider: a state
and a transition per call. -/
def sfprov_run {σ : Type} (step : σ → sfprov_call → σ) (s : σ)
    (calls : List sfprov_call) : σ :=
  calls.foldl step s

/-! ## close -/

/-- The loop of `vfsnode_clear_dir_list`: while the list is not `NULL`, free
its head and go on with `sf_next`.  The second component collects the freed
buffers. -/
def clear_dir_list_loop :
    List sffs_dirents → List sffs_dirents → List sffs_dirents × List sffs_dirents
  | [], freed => ([], freed)
  | seg :: next, freed => clear_dir_list_loop next (freed ++ [seg])

/-- Clears the (cached) directory listing for the node; also returns the
buffers passed to `free`. -/
def vfsnode_clear_dir_list (np : vboxfs_node) : vboxfs_node × List sffs_dirents :=
  let r := clear_dir_list_loop np.sf_dir_list []
  ({ np with sf_dir_list := r.1 }, r.2)

def vfsnode_invalidate_stat_cache (np : vboxfs_node) : vboxfs_node :=
  { np with sf_stat_time := 0 }

structure close_result where
  error : Int
  np : vboxfs_node
  calls : List sfprov_call
  freed : List sffs_dirents
  deriving DecidableEq, Repr

/-- The operation `vboxfs_close`.  `sfprov_close` is the provider's answer to
closing a handle; the `(void)` cast drops it. -/
def vboxfs_close (sfprov_close : Nat → Int) (vp : vnode) : close_result :=
  let np := vp.v_data
  let cleared := vfsnode_clear_dir_list np
  let np := vfsnode_invalidate_stat_cache cleared.1
  match np.sf_file with
  | some fp =>
    let _ignored := sfprov_close fp
    { error := 0, np := { np with sf_file := none },
      calls := [sfprov_call.sfprov_close fp], freed := cleared.2 }
  | none => { error := 0, np := np, calls := [], freed := cleared.2 }

/-! ## setattr -/

/-- The chain of `if`s at the head of `vboxfs_setattr` that adds the file type
bits to the requested mode. -/
def setattr_mode (t : vtype) (mode : Nat) : Nat :=
  if t = vtype.VREG then mode ||| S_IFREG
  else if t = vtype.VDIR then mode ||| S_IFDIR
  else if t = vtype.VBLK then mode ||| S_IFBLK
  else if t = vtype.VCHR then mode ||| S_IFCHR
  else if t = vtype.VLNK then mode ||| S_IFLNK
  else if t = vtype.VFIFO then mode ||| S_IFIFO
  else if t = vtype.VSOCK then mode ||| S_IFSOCK
  else mode

/-- The first test of `vboxfs_setattr` after the provider call: one of flags,
uid, gid, access time, modification time, mode differs from `VNOVAL`. -/
def setattr_changes_meta (vap : vattr) : Bool :=
  vap.va_flags != cast_u 64 VNOVAL || vap.va_uid != cast_u 32 VNOVAL ||
  vap.va_gid != cast_u 32 VNOVAL || vap.va_atime.tv_sec != VNOVAL ||
  vap.va_mtime.tv_sec != VNOVAL || vap.va_mode != cast_u 16 VNOVAL

/-- The operation `vboxfs_setattr`.  `sfprov_set_attr` is the provider's
answer to the one `sfprov_set_attr` call, a function of its arguments. -/
def vboxfs_setattr
    (sfprov_set_attr : Nat → String → Nat → timespec → timespec → timespec → Int)
    (vp : vnode) (vap : vattr) : op_result :=
  let np := vp.v_data
  let mode := setattr_mode vp.v_type vap.va_mode
  let np := vfsnode_invalidate_stat_cache np
  let error := sfprov_set_attr np.vboxfsmp.sf_handle np.sf_path mode
    vap.va_atime vap.va_mtime vap.va_ctime
  let calls := [sfprov_call.sfprov_set_attr np.vboxfsmp.sf_handle np.sf_path mode
    vap.va_atime vap.va_mtime vap.va_ctime]
  if setattr_changes_meta vap then
    { error := EROFS, np := np, calls := calls }
  else if vap.va_size ≠ cast_u 64 VNOVAL then
    match vp.v_type with
    | .VDIR => { error := EISDIR, np := np, calls := calls }
    | .VLNK | .VREG => { error := EROFS, np := np, calls := calls }
    | .VCHR | .VBLK | .VSOCK | .VFIFO | .VNON | .VBAD | .VMARKER =>
      { error := 0, np := np, calls := calls }
  else { error := error, np := np, calls := calls }

/-! ## The operations that are not supported

Each takes its argument structure, of which it reads nothing: `α` stands for
`struct vop_write_args` and the like, whatever they hold. -/

structure stub_result where
  error : Int
  calls : List sfprov_call
  deriving DecidableEq, Repr

def vboxfs_write {α : Type} (_ap : α) : stub_result := { error := EOPNOTSUPP, calls := [] }
def vboxfs_create {α : Type} (_ap : α) : stub_result := { error := EOPNOTSUPP, calls := [] }
def vboxfs_remove {α : Type} (_ap : α) : stub_result := { error := EOPNOTSUPP, calls := [] }
def vboxfs_rename {α : Type} (_ap : α) : stub_result := { error := EOPNOTSUPP, calls := [] }
def vboxfs_link {α : Type} (_ap : α) : stub_result := { error := EOPNOTSUPP, calls := [] }
def vboxfs_symlink {α : Type} (_ap : α) : stub_result := { error := EOPNOTSUPP, calls := [] }
def vboxfs_mknod {α : Type} (_ap : α) : stub_result := { error := EOPNOTSUPP, calls := [] }
def vboxfs_mkdir {α : Type} (_ap : α) : stub_result := { error := EOPNOTSUPP, calls := [] }
def vboxfs_rmdir {α : Type} (_ap : α) : stub_result := { error := EOPNOTSUPP, calls := [] }

/-! ## Constants of headers that are not part of this file -/

/-- Compile-time constants the operations use and this file does not define:
the size of `sffs_stat_t`, the kernel's `MAXPHYS`, and the reserved name and
the two identifiers of `vboxvfs.h`. -/
structure header where
  sizeof_sffs_stat_t : Nat
  MAXPHYS : Nat
  THEFILE_NAME : String
  THEFILE_INO : Nat
  ROOTDIR_INO : Nat
  deriving DecidableEq, Repr

/-! ## read -/

/-- The kernel's `min` of `libkern.h`: both arguments are converted to
`u_int`. -/
def min_u_int (a b : Int) : Nat := min (cast_u 32 a) (cast_u 32 b)

/-- What `vboxfs_read` hands back: its result, the request afterwards, the
provider calls in order and, for each, the provider's answer: the error and
the byte count it left in `done`. -/
structure read_result where
  error : Int
  uio : uio
  calls : List sfprov_call
  replies : List (Int × Nat)
  deriving DecidableEq, Repr

/-- The `do ... while` loop of `vboxfs_read`.  `sfprov_read k call` is the
provider's answer to call number `k` (from 0) of this operation: its result
and the value it leaves in `done`, a `uint32_t`.  The call's last argument,
`uio_segflg == UIO_SYSSPACE`, is not recorded.  The first argument bounds
the number of iterations; `none` when it does not suffice. -/
def vboxfs_read_loop (hd : header) (sfprov_read : Nat → sfprov_call → Int × Nat)
    (fp : Nat) : Nat → uio → List sfprov_call → List (Int × Nat) → Option read_result
  | 0, _, _, _ => none
  | fuel + 1, u, calls, replies =>
    let offset := cast_u 64 u.uio_offset
    let bytes := min_u_int hd.MAXPHYS u.uio_resid
    let call := sfprov_call.sfprov_read fp u.iov_base offset bytes
    let reply := sfprov_read calls.length call
    let error := reply.1
    let done : Nat := reply.2 % 2 ^ 32
    let u := { u with uio_resid := u.uio_resid - (done : Int) }
    if error = 0 ∧ u.uio_resid > 0 ∧ done > 0 then
      vboxfs_read_loop hd sfprov_read fp fuel u (calls ++ [call]) (replies ++ [(error, done)])
    else
      some { error := error, uio := u, calls := calls ++ [call],
             replies := replies ++ [(error, done)] }

/-- The operation `vboxfs_read`. -/
def vboxfs_read (hd : header) (sfprov_read : Nat → sfprov_call → Int × Nat)
    (vp : vnode) (u : uio) : Option read_result :=
  let np := vp.v_data
  if vp.v_type = vtype.VDIR then
    some { error := EISDIR, uio := u, calls := [], replies := [] }
  else if vp.v_type ≠ vtype.VREG then
    some { error := EINVAL, uio := u, calls := [], replies := [] }
  else
    let total := u.uio_resid
    if total = 0 then
      some { error := 0, uio := u, calls := [], replies := [] }
    else
      match np.sf_file with
      | none => some { error := ENXIO, uio := u, calls := [], replies := [] }
      | some fp =>
        match vboxfs_read_loop hd sfprov_read fp (total.toNat + 1) u [] [] with
        | none => none
        | some r =>
          -- a read that delivered bytes is never an error
          if total ≠ r.uio.uio_resid then some { r with error := 0 } else some r

/-! ## readdir -/

/-- The number of bytes an entry occupies in its buffer:
`sizeof(sffs_stat_t) + d_reclen`. -/
def entry_len (hd : header) (e : sffs_dirent) : Nat :=
  hd.sizeof_sffs_stat_t + e.sf_entry.d_reclen

/-- The entry a pointer `offset` bytes past `&sf_entries[0]` points to: the
entry that starts there; `none` when no entry of the buffer starts there. -/
def dirent_at (hd : header) : List sffs_dirent → Int → Option sffs_dirent
  | [], _ => none
  | e :: rest, offset =>
    if offset = 0 then some e
    else if offset < entry_len hd e then none
    else dirent_at hd rest (offset - entry_len hd e)

/-- The first loop of `vboxfs_readdir`: skip the buffers that end at or before
the cursor.  Gives `cur_buf` (with what follows it) and `offset`. -/
def readdir_skip (uio_offset : Int) : List sffs_dirents → Int → List sffs_dirents × Int
  | [], offset => ([], offset)
  | cur_buf :: next, offset =>
    if offset + cur_buf.sf_len ≤ uio_offset then
      readdir_skip uio_offset next (offset + cur_buf.sf_len)
    else (cur_buf :: next, offset)

/-- The inner loop of the validation: from the entry `dirent` points to (the
head of the list) step over entries while `off < uio_offset`.  Gives the
final `off`; `none` when the walk leaves the entries of the buffer. -/
def readdir_walk (hd : header) (uio_offset : Int) : List sffs_dirent → Int → Option Int
  | [], off => if off < uio_offset then none else some off
  | dirent :: rest, off =>
    if off < uio_offset then
      readdir_walk hd uio_offset rest (off + entry_len hd dirent)
    else some off

/-- The kernel's `uiomove` for a record that fits the request's single
`iovec`: `copyout base n` is the result of copying `n` bytes to address
`base` of the caller (0, or `EFAULT`); on an error the request is left as it
was. -/
def uiomove (copyout : Nat → Nat → Int) (n : Nat) (u : uio) : Int × uio :=
  let error := copyout u.iov_base n
  if error ≠ 0 then (error, u)
  else (0, { uio_offset := u.uio_offset + n, uio_resid := u.uio_resid - n,
             iov_base := u.iov_base + n })

/-- The node the copy loop selects for an entry name: the directory for ".",
its parent, or the directory when it has none, for ".."; the variable stays
unassigned for any other name.  Nodes are given by their `sf_ino`. -/
def readdir_node (dir : vboxfs_node) (d_name : String) : Option Nat :=
  if d_name = "." then some dir.sf_ino
  else if d_name = ".." then
    match dir.sf_parent with
    | some parent => some parent
    | none => some dir.sf_ino
  else none

/-- The copy loop of `vboxfs_readdir`, from `cur_buf` (the head of the list)
and `offset`: gives `error`, the request afterwards and the records copied
to the caller.  The first argument bounds the number of iterations; `none`
when it does not suffice or when `offset` is not the start of an entry. -/
def readdir_copy (hd : header) (copyout : Nat → Nat → Int) (dir : vboxfs_node) :
    Nat → List sffs_dirents → Int → uio → List dirent → Option (Int × uio × List dirent)
  | _, [], _, u, out => some (0, u, out)
  | 0, _ :: _, _, _, _ => none
  | fuel + 1, cur_buf :: next, offset, u, out =>
    if offset ≥ cur_buf.sf_len then
      readdir_copy hd copyout dir fuel next 0 u out
    else
      match dirent_at hd cur_buf.sf_entries offset with
      | none => none
      | some dirent =>
        if (dirent.sf_entry.d_reclen : Int) > u.uio_resid then some (0, u, out)
        else
          let _node := readdir_node dir dirent.sf_entry.d_name
          let r := uiomove copyout dirent.sf_entry.d_reclen u
          if r.1 ≠ 0 then some (r.1, r.2, out)
          else
            let u := { r.2 with uio_offset := dirent.sf_entry.d_fileno }
            readdir_copy hd copyout dir fuel (cur_buf :: next)
              (offset + entry_len hd dirent) u (out ++ [dirent.sf_entry])

/-- A bound on the iterations of the copy loop over a list of buffers. -/
def readdir_fuel (l : List sffs_dirents) : Nat :=
  (l.map (fun b => b.sf_entries.length + 1)).sum + 1

structure vop_readdir_args where
  a_vp : vnode
  a_uio : uio
  a_eofflag : Int
  deriving DecidableEq, Repr

/-- What `vboxfs_readdir` hands back: its result, the request and the
directory node afterwards, the caller's `*a_eofflag`, the records copied to
the caller in order, and the provider calls. -/
structure readdir_result where
  error : Int
  uio : uio
  dir : vboxfs_node
  a_eofflag : Int
  copied : List dirent
  calls : List sfprov_call
  deriving DecidableEq, Repr

/-- The part of `vboxfs_readdir` after the listing is on the node: validate
the cursor, then copy. -/
def readdir_cached (hd : header) (copyout : Nat → Nat → Int) (dir : vboxfs_node)
    (u : uio) : Option (Int × uio × List dirent) :=
  let sk := readdir_skip u.uio_offset dir.sf_dir_list 0
  let cur_buf := sk.1
  let offset := sk.2
  match cur_buf with
  | [] =>
    if offset ≠ u.uio_offset then some (EINVAL, u, [])
    else readdir_copy hd copyout dir (readdir_fuel cur_buf) cur_buf (u.uio_offset - offset) u []
  | b :: _ =>
    if offset ≠ u.uio_offset then
      match readdir_walk hd u.uio_offset b.sf_entries offset with
      | none => none
      | some off =>
        if off ≥ u.uio_offset then some (EINVAL, u, [])
        else readdir_copy hd copyout dir (readdir_fuel cur_buf) cur_buf
          (u.uio_offset - offset) u []
    else readdir_copy hd copyout dir (readdir_fuel cur_buf) cur_buf (u.uio_offset - offset) u []

/-- The operation `vboxfs_readdir`.  `sfprov_readdir` is the provider's
answer to the enumeration: its result and the list it stores through
`&dir->sf_dir_list`.  `none` when the listing is not the encoding of its
entries, so that the C code reads outside a buffer. -/
def vboxfs_readdir (hd : header) (sfprov_readdir : Nat → String → Int × List sffs_dirents)
    (copyout : Nat → Nat → Int) (ap : vop_readdir_args) : Option readdir_result :=
  let dir := ap.a_vp.v_data
  let u := ap.a_uio
  let fetch : Int × vboxfs_node × List sfprov_call :=
    if dir.sf_dir_list = [] then
      let r := sfprov_readdir dir.vboxfsmp.sf_handle dir.sf_path
      (r.1, { dir with sf_dir_list := r.2 },
        [sfprov_call.sfprov_readdir dir.vboxfsmp.sf_handle dir.sf_path])
    else (0, dir, [])
  let dir := fetch.2.1
  if fetch.1 ≠ 0 then
    some { error := fetch.1, uio := u, dir := dir, a_eofflag := ap.a_eofflag,
           copied := [], calls := fetch.2.2 }
  else
    match readdir_cached hd copyout dir u with
    | none => none
    | some r =>
      some { error := r.1, uio := r.2.1, dir := dir, a_eofflag := ap.a_eofflag,
             copied := r.2.2, calls := fetch.2.2 }

/-- The listing is the encoding of its entries: every buffer is as long as
its entries together. -/
def dir_list_wf (hd : header) (l : List sffs_dirents) : Prop :=
  ∀ b ∈ l, b.sf_len = (b.sf_entries.map (entry_len hd)).sum

instance (hd : header) (l : List sffs_dirents) : Decidable (dir_list_wf hd l) := by
  unfold dir_list_wf; infer_instance

/-! ## lookup -/

inductive nameiop where
  | LOOKUP | CREATE | DELETE | RENAME
  deriving DecidableEq, Repr

/-- The fields of `struct componentname` that `vboxfs_lookup` reads; the
three bits of `cn_flags` it tests are three booleans. -/
structure componentname where
  cn_nameptr : String
  cn_nameiop : nameiop
  ISDOTDOT : Bool
  MAKEENTRY : Bool
  ISLASTCN : Bool
  cn_lkflags : Nat
  deriving DecidableEq, Repr

/-- The vnode a lookup stores through `a_vpp`: the directory vnode itself, or
the vnode that `vn_vget_ino` or `vboxfs_vget` produced for an identifier. -/
inductive lookup_vp where
  | dvp
  | vn_vget_ino (id : Nat) (vp : Nat)
  | vboxfs_vget (id : Nat) (vp : Nat)
  deriving DecidableEq, Repr

/-- What `vboxfs_lookup` hands back: its result, what it stored through
`a_vpp` (`none`: nothing), the identifier it asked a `vget` for, and the
second argument of each call of `cache_enter`. -/
structure lookup_result where
  error : Int
  vpp : Option lookup_vp
  vget_id : Option Nat
  cache_enter : List (Option lookup_vp)
  deriving DecidableEq, Repr

/-- The operation `vboxfs_lookup`.  `vn_vget_ino` and `vboxfs_vget` give, for
an identifier, the result of that function and the vnode it produces.  The
lock adjustments of the "." branch are left out: they change no identity. -/
def vboxfs_lookup (hd : header) (vn_vget_ino vboxfs_vget : Nat → Int × Nat)
    (dvp : vnode) (cnp : componentname) : lookup_result :=
  let node := dvp.v_data
  if dvp.v_type ≠ vtype.VDIR then
    { error := ENOTDIR, vpp := none, vget_id := none, cache_enter := [] }
  else
    let id : Nat :=
      if cnp.cn_nameptr = hd.THEFILE_NAME then hd.THEFILE_INO
      else if cnp.ISDOTDOT then hd.ROOTDIR_INO
      else 0
    if id ≠ 0 then
      let r : Int × lookup_vp × Option Nat :=
        if cnp.ISDOTDOT then
          ((vn_vget_ino id).1, lookup_vp.vn_vget_ino id (vn_vget_ino id).2, some id)
        else if node.sf_ino = id then (0, lookup_vp.dvp, none)
        else ((vboxfs_vget id).1, lookup_vp.vboxfs_vget id (vboxfs_vget id).2, some id)
      if r.1 = 0 then
        { error := 0, vpp := some r.2.1, vget_id := r.2.2,
          cache_enter := if cnp.MAKEENTRY then [some r.2.1] else [] }
      else { error := r.1, vpp := none, vget_id := r.2.2, cache_enter := [] }
    else
      { error := if cnp.ISLASTCN ∧ (cnp.cn_nameiop = nameiop.CREATE ∨
                    cnp.cn_nameiop = nameiop.RENAME) then EROFS else ENOENT,
        vpp := none, vget_id := none,
        cache_enter := if cnp.MAKEENTRY then [none] else [] }

/-- The provider's answers to a sequence of read calls, call number `k` being
element `k`: the result and the byte count, a `uint32_t`. -/
def read_replies (sfprov_read : Nat → sfprov_call → Int × Nat)
    (calls : List sfprov_call) : List (Int × Nat) :=
  calls.enum.map (fun kc => ((sfprov_read kc.1 kc.2).1, (sfprov_read kc.1 kc.2).2 % 2 ^ 32))

/-! ## Concrete inputs -/

/-- Sample values of the header constants. -/
def hd_sample : header :=
  { sizeof_sffs_stat_t := 64, MAXPHYS := 131072, THEFILE_NAME := "thefile",
    THEFILE_INO := 2, ROOTDIR_INO := 1 }

def mnt_sample : vboxfs_mnt := { sf_handle := 1, sf_uid := 1001, sf_gid := 1001 }

def stat_sample : sffs_stat := { sf_mode := 0, sf_size := 0, sf_alloc := 0 }

/-- A regular file that is not open. -/
def file_closed : vnode :=
  { v_type := vtype.VREG,
    v_data := { vboxfsmp := mnt_sample, sf_path := "/f", sf_ino := 9, sf_parent := some 1,
                sf_file := none, sf_stat := stat_sample, sf_stat_time := 7,
                sf_dir_list := [] } }

/-- A regular file that is open, with provider handle 3. -/
def file_open : vnode :=
  { v_type := vtype.VREG,
    v_data := { vboxfsmp := mnt_sample, sf_path := "/f", sf_ino := 9, sf_parent := some 1,
                sf_file := some 3, sf_stat := stat_sample, sf_stat_time := 7,
                sf_dir_list := [] } }

/-- A request that sets the permission bits and nothing else. -/
def vattr_chmod : vattr :=
  { va_flags := 2 ^ 64 - 1, va_uid := 2 ^ 32 - 1, va_gid := 2 ^ 32 - 1,
    va_atime := { tv_sec := -1, tv_nsec := -1 }, va_mtime := { tv_sec := -1, tv_nsec := -1 },
    va_ctime := { tv_sec := -1, tv_nsec := -1 }, va_mode := 0o644, va_size := 2 ^ 64 - 1 }

/-- A provider that accepts every attribute change. -/
def set_attr_ok : Nat → String → Nat → timespec → timespec → timespec → Int :=
  fun _ _ _ _ _ _ => 0

/-- A provider whose every read fails with `EINVAL`, no byte delivered. -/
def read_fails : Nat → sfprov_call → Int × Nat := fun _ _ => (22, 0)

/-- Caller memory that takes every copy. -/
def copyout_ok : Nat → Nat → Int := fun _ _ => 0

/-- A provider whose enumeration fails; of no effect on a node that has its
listing. -/
def readdir_fails : Nat → String → Int × List sffs_dirents := fun _ _ => (5, [])

/-- The entry "a": 64 + 16 bytes from offset 0; its `d_fileno` is the offset
at which the next entry starts. -/
def entry_a : sffs_dirent :=
  { sf_stat := stat_sample, sf_entry := { d_fileno := 80, d_reclen := 16, d_name := "a" } }

/-- The entry "b": 64 + 16 bytes from offset 80. -/
def entry_b : sffs_dirent :=
  { sf_stat := stat_sample, sf_entry := { d_fileno := 160, d_reclen := 16, d_name := "b" } }

/-- A directory whose listing is on the node: one buffer with "a" and "b". -/
def dir_ab : vnode :=
  { v_type := vtype.VDIR,
    v_data := { vboxfsmp := mnt_sample, sf_path := "/d", sf_ino := 5, sf_parent := some 1,
                sf_file := none, sf_stat := stat_sample, sf_stat_time := 7,
                sf_dir_list := [{ sf_len := 160, sf_entries := [entry_a, entry_b] }] } }

def entry_dot : sffs_dirent :=
  { sf_stat := stat_sample, sf_entry := { d_fileno := 100, d_reclen := 16, d_name := "." } }

def entry_dotdot : sffs_dirent :=
  { sf_stat := stat_sample, sf_entry := { d_fileno := 200, d_reclen := 16, d_name := ".." } }

/-- The directory with identifier 7 whose parent has identifier 5; its listing
is on the node: one buffer with "." and "..", to which the provider gave the
file numbers 100 and 200. -/
def dir_dots : vnode :=
  { v_type := vtype.VDIR,
    v_data := { vboxfsmp := mnt_sample, sf_path := "/d/e", sf_ino := 7, sf_parent := some 5,
                sf_file := none, sf_stat := stat_sample, sf_stat_time := 7,
                sf_dir_list := [{ sf_len := 160, sf_entries := [entry_dot, entry_dotdot] }] } }

/-- A `vget` that finds every identifier: identifier `id` is vnode `1000 + id`. -/
def vget_ok : Nat → Int × Nat := fun id => (0, 1000 + id)

/-- The request of `readdir` on `vp` with cursor `offset` and room for `resid`
bytes at address 4096. -/
def readdir_args (vp : vnode) (offset resid : Int) : vop_readdir_args :=
  { a_vp := vp, a_uio := { uio_offset := offset, uio_resid := resid, iov_base := 4096 },
    a_eofflag := 0 }

/-! ## open -/

/-- The operation `vboxfs_open`.  `sfprov_open` is the provider's answer to
opening a path on a mount: its result and the file pointer it stores through
`&fp`.  The kernel's `vnode_create_vobject` that follows a successful open
touches nothing of the node. -/
def vboxfs_open (sfprov_open : Nat → String → Int × Option Nat) (vp : vnode) : op_result :=
  let np := vp.v_data
  let r := sfprov_open np.vboxfsmp.sf_handle np.sf_path
  let calls := [sfprov_call.sfprov_open np.vboxfsmp.sf_handle np.sf_path]
  if r.1 ≠ 0 then { error := r.1, np := np, calls := calls }
  else { error := 0, np := { np with sf_file := r.2 }, calls := calls }

/-! ## getattr -/

/-- The fields of the caller's `struct vattr` that `vboxfs_getattr` writes, but
for `va_rdev` and `va_gen`, which get the constants `NODEV` and `VNOVAL`. -/
structure vattr_snapshot where
  va_type : vtype
  va_nlink : Nat
  va_uid : Nat
  va_gid : Nat
  va_flags : Nat
  va_filerev : Nat
  va_vaflags : Nat
  va_fileid : Nat
  va_fsid : Nat
  va_atime : timespec
  va_mtime : timespec
  va_ctime : timespec
  va_mode : Nat
  va_size : Nat
  va_blocksize : Nat
  va_bytes : Nat
  deriving DecidableEq, Repr

/-- The test `vp->v_type & VDIR` of `vboxfs_getattr`: a bitwise and of the two
`enum vtype` values. -/
def getattr_type_and_VDIR (t : vtype) : Bool :=
  (t.toNat &&& vtype.VDIR.toNat) != 0

/-- The operation `vboxfs_getattr`: its result and the attributes it writes.
`f_fsid` is `vp->v_mount->mnt_stat.f_fsid.val[0]`.  The sum `sf_alloc + 511`
is one of 64 bits.  The node is not written and the provider is not called. -/
def vboxfs_getattr (f_fsid : Nat) (vp : vnode) : Int × vattr_snapshot :=
  let np := vp.v_data
  let mp := np.vboxfsmp
  let va_fileid := if np.sf_ino = 0 then 2 else np.sf_ino
  let dir := getattr_type_and_VDIR vp.v_type
  (0, { va_type := vp.v_type,
        va_nlink := if dir then 2 else 1,
        va_uid := mp.sf_uid,
        va_gid := mp.sf_gid,
        va_flags := 0,
        va_filerev := 0,
        va_vaflags := 0,
        va_fileid := va_fileid,
        va_fsid := f_fsid,
        va_atime := { tv_sec := VNOVAL, tv_nsec := VNOVAL },
        va_mtime := { tv_sec := VNOVAL, tv_nsec := VNOVAL },
        va_ctime := { tv_sec := VNOVAL, tv_nsec := VNOVAL },
        va_mode := if dir then 0o555 else 0o444,
        va_size := np.sf_stat.sf_size,
        va_blocksize := 512,
        va_bytes := ((np.sf_stat.sf_alloc + 511) % 2 ^ 64) / 512 })

/-! ## Sequences of operations on one vnode -/

/-- All entries of a listing, buffer after buffer. -/
def dir_list_entries (l : List sffs_dirents) : List sffs_dirent :=
  l.flatMap (fun b => b.sf_entries)

/-- The copy loop of `vboxfs_readdir` told over the entries that lie ahead, as
one sequence: stop at the first record that is longer than the room left or
whose copy fails, else copy it, set the cursor to its `d_fileno` and go on. -/
def copy_entries (copyout : Nat → Nat → Int) :
    List sffs_dirent → uio → Int × uio × List dirent
  | [], u => (0, u, [])
  | e :: es, u =>
    if (e.sf_entry.d_reclen : Int) > u.uio_resid then (0, u, [])
    else
      let r := uiomove copyout e.sf_entry.d_reclen u
      if r.1 ≠ 0 then (r.1, r.2, [])
      else
        let t := copy_entries copyout es { r.2 with uio_offset := e.sf_entry.d_fileno }
        (t.1, t.2.1, e.sf_entry :: t.2.2)

/-- The total length of a listing: the `sf_len` of its buffers together. -/
def dir_list_len (l : List sffs_dirents) : Nat :=
  (l.map (fun b => b.sf_len)).sum

/-- The listing `vboxfs_readdir` works on: the one on the node, or, when the
node has none, the one the provider stores. -/
def readdir_listing (sfprov_readdir : Nat → String → Int × List sffs_dirents)
    (dir : vboxfs_node) : List sffs_dirents :=
  if dir.sf_dir_list = [] then (sfprov_readdir dir.vboxfsmp.sf_handle dir.sf_path).2
  else dir.sf_dir_list

/-- The residual count before provider call number `k` of a read: the count
of the request less the bytes of the answers before it. -/
def resid_before (u : uio) (replies : List (Int × Nat)) (k : Nat) : Int :=
  u.uio_resid - (((replies.take k).map (fun p => p.2)).sum : Nat)

/-! ## More concrete inputs -/

/-- A provider whose open fails with `EACCES`. -/
def open_denied : Nat → String → Int × Option Nat := fun _ _ => (13, none)

/-- A provider whose open gives file pointer 3. -/
def open_ok : Nat → String → Int × Option Nat := fun _ _ => (0, some 3)

/-- A provider that closes every handle. -/
def close_ok : Nat → Int := fun _ => 0

/-- A block device node with 4096 bytes allocated. -/
def node_blk : vnode :=
  { v_type := vtype.VBLK,
    v_data := { vboxfsmp := mnt_sample, sf_path := "/b", sf_ino := 11, sf_parent := some 1,
                sf_file := none,
                sf_stat := { sf_mode := 0, sf_size := 4000, sf_alloc := 4096 },
                sf_stat_time := 7, sf_dir_list := [] } }

/-- A provider that delivers 3 bytes per read, or fewer when fewer are asked
for. -/
def read_three : Nat → sfprov_call → Int × Nat
  | _, .sfprov_read _ _ _ numbytes => (0, min 3 numbytes)
  | _, _ => (0, 0)

theorem clear_dir_list_loop_eq (l freed : List sffs_dirents) :
    clear_dir_list_loop l freed = ([], freed ++ l) := by
  induction l generalizing freed with
  | nil => simp [clear_dir_list_loop]
  | cons b next ih => simp [clear_dir_list_loop, ih]

/-- C10: `vboxfs_close` returns 0 whatever the node holds and whatever the
provider's close returns; afterwards the node has no listing, every buffer of
the chain having been freed, in order, and no handle; the provider's close is
called exactly once, on the handle, when the node held one, and not at all
when it held none. -/
theorem C10_close_always_succeeds (sfprov_close : Nat → Int) (vp : vnode) :
    (vboxfs_close sfprov_close vp).error = 0 ∧
    (vboxfs_close sfprov_close vp).np.sf_dir_list = [] ∧
    (vboxfs_close sfprov_close vp).freed = vp.v_data.sf_dir_list ∧
    (vboxfs_close sfprov_close vp).np.sf_file = none ∧
    (vboxfs_close sfprov_close vp).calls =
      (match vp.v_data.sf_file with
       | some fp => [sfprov_call.sfprov_close fp]
       | none => []) := by
  unfold vboxfs_close vfsnode_clear_dir_list vfsnode_invalidate_stat_cache
  simp only [clear_dir_list_loop_eq]
  cases h : vp.v_data.sf_file <;> simp

/-! ## Theorems: setattr -/

theorem cast_u_64_VNOVAL : cast_u 64 VNOVAL = 2 ^ 64 - 1 := by decide

theorem cast_u_32_VNOVAL : cast_u 32 VNOVAL = 2 ^ 32 - 1 := by decide

theorem cast_u_16_VNOVAL : cast_u 16 VNOVAL = 2 ^ 16 - 1 := by decide

theorem setattr_changes_meta_iff (vap : vattr) :
    setattr_changes_meta vap = true ↔
      (vap.va_flags ≠ 2 ^ 64 - 1 ∨ vap.va_uid ≠ 2 ^ 32 - 1 ∨ vap.va_gid ≠ 2 ^ 32 - 1 ∨
        vap.va_atime.tv_sec ≠ -1 ∨ vap.va_mtime.tv_sec ≠ -1 ∨ vap.va_mode ≠ 2 ^ 16 - 1) := by
  unfold setattr_changes_meta
  rw [cast_u_64_VNOVAL, cast_u_32_VNOVAL, cast_u_16_VNOVAL]
  simp [VNOVAL, or_assoc]

/-- C9: the result of `vboxfs_setattr`, for every node type, request and
provider: `EROFS` when one of flags, uid, gid, access time, modification time,
mode is set, whatever the provider returned; else, when a size is set,
`EISDIR` for a directory, `EROFS` for a regular file or a symlink, 0 for
every other type; else the result of the provider's `sfprov_set_attr`. -/
theorem C9_setattr_result
    (sfprov_set_attr : Nat → String → Nat → timespec → timespec → timespec → Int)
    (vp : vnode) (vap : vattr) :
    (vboxfs_setattr sfprov_set_attr vp vap).error =
      if vap.va_flags ≠ 2 ^ 64 - 1 ∨ vap.va_uid ≠ 2 ^ 32 - 1 ∨ vap.va_gid ≠ 2 ^ 32 - 1 ∨
          vap.va_atime.tv_sec ≠ -1 ∨ vap.va_mtime.tv_sec ≠ -1 ∨ vap.va_mode ≠ 2 ^ 16 - 1 then
        EROFS
      else if vap.va_size ≠ 2 ^ 64 - 1 then
        (if vp.v_type = vtype.VDIR then EISDIR
         else if vp.v_type = vtype.VREG ∨ vp.v_type = vtype.VLNK then EROFS
         else 0)
      else
        sfprov_set_attr vp.v_data.vboxfsmp.sf_handle vp.v_data.sf_path
          (setattr_mode vp.v_type vap.va_mode) vap.va_atime vap.va_mtime vap.va_ctime := by
  unfold vboxfs_setattr
  by_cases hm : vap.va_flags ≠ 2 ^ 64 - 1 ∨ vap.va_uid ≠ 2 ^ 32 - 1 ∨ vap.va_gid ≠ 2 ^ 32 - 1 ∨
          vap.va_atime.tv_sec ≠ -1 ∨ vap.va_mtime.tv_sec ≠ -1 ∨ vap.va_mode ≠ 2 ^ 16 - 1
  · rw [if_pos hm, if_pos ((setattr_changes_meta_iff vap).2 hm)]
  · rw [if_neg hm, if_neg (fun h => hm ((setattr_changes_meta_iff vap).1 h))]
    rw [cast_u_64_VNOVAL]
    by_cases hs : vap.va_size ≠ 2 ^ 64 - 1
    · rw [if_pos hs, if_pos hs]
      cases vp.v_type <;> simp
    · rw [if_neg hs, if_neg hs]
      rfl


/-- C8, as the code has it: write, create, remove, rename, link, symlink,
mknod, mkdir and rmdir return `EOPNOTSUPP` for every argument and call the
provider not at all, so that any provider is in the state it was in; a
`vboxfs_setattr` that changes flags, uid, gid, access time, modification time
or mode returns `EROFS` after exactly one `sfprov_set_attr` call, with the
path, the mode with its type bits and the three times of the request, so
that the provider is in the state that call leaves. -/
theorem C8_mutations_rejected {α σ : Type} (ap : α) (step : σ → sfprov_call → σ) (s : σ)
    (sfprov_set_attr : Nat → String → Nat → timespec → timespec → timespec → Int)
    (vp : vnode) (vap : vattr)
    (h : vap.va_flags ≠ 2 ^ 64 - 1 ∨ vap.va_uid ≠ 2 ^ 32 - 1 ∨ vap.va_gid ≠ 2 ^ 32 - 1 ∨
        vap.va_atime.tv_sec ≠ -1 ∨ vap.va_mtime.tv_sec ≠ -1 ∨ vap.va_mode ≠ 2 ^ 16 - 1) :
    ((vboxfs_write ap).error = EOPNOTSUPP ∧ sfprov_run step s (vboxfs_write ap).calls = s) ∧
    ((vboxfs_create ap).error = EOPNOTSUPP ∧ sfprov_run step s (vboxfs_create ap).calls = s) ∧
    ((vboxfs_remove ap).error = EOPNOTSUPP ∧ sfprov_run step s (vboxfs_remove ap).calls = s) ∧
    ((vboxfs_rename ap).error = EOPNOTSUPP ∧ sfprov_run step s (vboxfs_rename ap).calls = s) ∧
    ((vboxfs_link ap).error = EOPNOTSUPP ∧ sfprov_run step s (vboxfs_link ap).calls = s) ∧
    ((vboxfs_symlink ap).error = EOPNOTSUPP ∧ sfprov_run step s (vboxfs_symlink ap).calls = s) ∧
    ((vboxfs_mknod ap).error = EOPNOTSUPP ∧ sfprov_run step s (vboxfs_mknod ap).calls = s) ∧
    ((vboxfs_mkdir ap).error = EOPNOTSUPP ∧ sfprov_run step s (vboxfs_mkdir ap).calls = s) ∧
    ((vboxfs_rmdir ap).error = EOPNOTSUPP ∧ sfprov_run step s (vboxfs_rmdir ap).calls = s) ∧
    (vboxfs_setattr sfprov_set_attr vp vap).error = EROFS ∧
    (vboxfs_setattr sfprov_set_attr vp vap).calls =
      [sfprov_call.sfprov_set_attr vp.v_data.vboxfsmp.sf_handle vp.v_data.sf_path
        (setattr_mode vp.v_type vap.va_mode) vap.va_atime vap.va_mtime vap.va_ctime] ∧
    sfprov_run step s (vboxfs_setattr sfprov_set_attr vp vap).calls =
      step s (sfprov_call.sfprov_set_attr vp.v_data.vboxfsmp.sf_handle vp.v_data.sf_path
        (setattr_mode vp.v_type vap.va_mode) vap.va_atime vap.va_mtime vap.va_ctime) := by
  have hs : vboxfs_setattr sfprov_set_attr vp vap =
      { error := EROFS, np := vfsnode_invalidate_stat_cache vp.v_data,
        calls := [sfprov_call.sfprov_set_attr vp.v_data.vboxfsmp.sf_handle vp.v_data.sf_path
          (setattr_mode vp.v_type vap.va_mode) vap.va_atime vap.va_mtime vap.va_ctime] } := by
    unfold vboxfs_setattr
    rw [if_pos ((setattr_changes_meta_iff vap).2 h)]
    rfl
  rw [hs]
  simp [vboxfs_write, vboxfs_create, vboxfs_remove, vboxfs_rename, vboxfs_link,
    vboxfs_symlink, vboxfs_mknod, vboxfs_mkdir, vboxfs_rmdir, sfprov_run]

/-- C8 at a concrete request: a `chmod` of a regular file. -/
theorem C8_mutations_rejected_witness :
    (vboxfs_write ()).error = EOPNOTSUPP ∧
    (vboxfs_setattr set_attr_ok file_closed vattr_chmod).error = EROFS ∧
    sfprov_run (fun (n : Nat) _ => n + 1) 0
      (vboxfs_setattr set_attr_ok file_closed vattr_chmod).calls = 1 :=
  have h := C8_mutations_rejected () (fun (n : Nat) _ => n + 1) 0 set_attr_ok file_closed
    vattr_chmod (by decide)
  ⟨h.1.1, h.2.2.2.2.2.2.2.2.2.1, h.2.2.2.2.2.2.2.2.2.2.2⟩

/-- C8 as stated fails: a `vboxfs_setattr` asked to change the mode of a
regular file returns `EROFS` and has called the provider: its one
`sfprov_set_attr` call leaves a provider that counts its calls at 1, not 0. -/
theorem C8_setattr_calls_provider :
    (vboxfs_setattr set_attr_ok file_closed vattr_chmod).error = EROFS ∧
    (vboxfs_setattr set_attr_ok file_closed vattr_chmod).calls =
      [sfprov_call.sfprov_set_attr 1 "/f" 0o100644 { tv_sec := -1, tv_nsec := -1 }
        { tv_sec := -1, tv_nsec := -1 } { tv_sec := -1, tv_nsec := -1 }] ∧
    sfprov_run (fun (n : Nat) _ => n + 1) 0
      (vboxfs_setattr set_attr_ok file_closed vattr_chmod).calls ≠ 0 := by
  decide

/-! ## Theorems: read -/

/-- C6, as the code has it: `vboxfs_read` returns `EISDIR` for a directory and
`EINVAL` for a node that is neither a directory nor a regular file, for
every request size; for a regular file without a provider handle it returns
`ENXIO` when the request is not empty and 0 when it is empty; in all these
cases it calls the provider not at all and leaves the request as it was. -/
theorem C6_read_rejections (hd : header) (sfprov_read : Nat → sfprov_call → Int × Nat)
    (vp : vnode) (u : uio) (h : vp.v_type ≠ vtype.VREG ∨ vp.v_data.sf_file = none) :
    vboxfs_read hd sfprov_read vp u =
      some { error := if vp.v_type = vtype.VDIR then EISDIR
                      else if vp.v_type ≠ vtype.VREG then EINVAL
                      else if u.uio_resid = 0 then 0
                      else ENXIO,
             uio := u, calls := [], replies := [] } := by
  unfold vboxfs_read
  by_cases hdir : vp.v_type = vtype.VDIR
  · simp [hdir]
  · by_cases hreg : vp.v_type = vtype.VREG
    · have hf : vp.v_data.sf_file = none := by
        rcases h with h | h
        · exact absurd hreg h
        · exact h
      by_cases hz : u.uio_resid = 0
      · simp [hreg, hz]
      · simp [hreg, hz, hf]
    · simp [hdir, hreg]

/-- C6 at a concrete request: 5 bytes of a regular file that is not open. -/
theorem C6_read_rejections_witness :
    vboxfs_read hd_sample read_fails file_closed { uio_offset := 0, uio_resid := 5, iov_base := 0 } =
      some { error := ENXIO, uio := { uio_offset := 0, uio_resid := 5, iov_base := 0 },
             calls := [], replies := [] } :=
  C6_read_rejections hd_sample read_fails file_closed
    { uio_offset := 0, uio_resid := 5, iov_base := 0 } (Or.inr rfl)

/-- C6 as stated fails: an empty request on a regular file that holds no
provider handle returns 0, not `ENXIO`. -/
theorem C6_empty_read_without_handle :
    (vboxfs_read hd_sample read_fails file_closed
      { uio_offset := 0, uio_resid := 0, iov_base := 0 }).map (fun r => r.error) = some 0 ∧
    (0 : Int) ≠ ENXIO := by
  decide

theorem read_replies_append (sfprov_read : Nat → sfprov_call → Int × Nat)
    (calls : List sfprov_call) (c : sfprov_call) :
    read_replies sfprov_read (calls ++ [c]) =
      read_replies sfprov_read calls ++
        [((sfprov_read calls.length c).1, (sfprov_read calls.length c).2 % 2 ^ 32)] := by
  simp [read_replies, List.enum, List.enumFrom_append]

/-- The loop of `vboxfs_read` returns when it may run once more than the
residual count it starts from.  Its replies are the provider's answers to its
calls; the answer to its first call comes first; the residual count has gone
down by the bytes of all answers; the result is that of the first answer when
there is no second; and there is a second answer only when the first
delivered a byte. -/
theorem vboxfs_read_loop_spec (hd : header) (sfprov_read : Nat → sfprov_call → Int × Nat)
    (fp : Nat) :
    ∀ (fuel : Nat) (u : uio) (calls : List sfprov_call) (replies : List (Int × Nat)),
      u.uio_resid.toNat < fuel → replies = read_replies sfprov_read calls →
      ∃ r rest,
        vboxfs_read_loop hd sfprov_read fp fuel u calls replies = some r ∧
        r.replies = read_replies sfprov_read r.calls ∧
        r.replies = replies ++
          ((sfprov_read calls.length (sfprov_call.sfprov_read fp u.iov_base
              (cast_u 64 u.uio_offset) (min_u_int hd.MAXPHYS u.uio_resid))).1,
           (sfprov_read calls.length (sfprov_call.sfprov_read fp u.iov_base
              (cast_u 64 u.uio_offset) (min_u_int hd.MAXPHYS u.uio_resid))).2 % 2 ^ 32) :: rest ∧
        r.uio.uio_resid = u.uio_resid -
          (((sfprov_read calls.length (sfprov_call.sfprov_read fp u.iov_base
              (cast_u 64 u.uio_offset) (min_u_int hd.MAXPHYS u.uio_resid))).2 % 2 ^ 32 : Nat) : Int) -
          ((rest.map (fun p => p.2)).sum : Nat) ∧
        (rest = [] → r.error = (sfprov_read calls.length (sfprov_call.sfprov_read fp u.iov_base
              (cast_u 64 u.uio_offset) (min_u_int hd.MAXPHYS u.uio_resid))).1) ∧
        (rest ≠ [] → 0 < (sfprov_read calls.length (sfprov_call.sfprov_read fp u.iov_base
              (cast_u 64 u.uio_offset) (min_u_int hd.MAXPHYS u.uio_resid))).2 % 2 ^ 32) := by
  intro fuel
  induction fuel with
  | zero => intro u calls replies h; omega
  | succ fuel ih =>
    intro u calls replies hfuel hrep
    generalize hc : sfprov_call.sfprov_read fp u.iov_base (cast_u 64 u.uio_offset)
      (min_u_int hd.MAXPHYS u.uio_resid) = call
    generalize ha : sfprov_read calls.length call = reply
    unfold vboxfs_read_loop
    simp only [hc, ha]
    by_cases hcont : reply.1 = 0 ∧ u.uio_resid - ((reply.2 % 2 ^ 32 : Nat) : Int) > 0 ∧
        reply.2 % 2 ^ 32 > 0
    · rw [if_pos hcont]
      have hrep2 : replies ++ [(reply.1, reply.2 % 2 ^ 32)] =
          read_replies sfprov_read (calls ++ [call]) := by
        rw [read_replies_append, ha, hrep]
      obtain ⟨r, rest, hr, hrr, hrl, hres, -, -⟩ :=
        ih { u with uio_resid := u.uio_resid - ((reply.2 % 2 ^ 32 : Nat) : Int) }
          (calls ++ [call]) (replies ++ [(reply.1, reply.2 % 2 ^ 32)])
          (by simp only; omega) hrep2
      have hrl2 := hrl
      simp only [List.append_assoc, List.singleton_append] at hrl2
      refine ⟨r, _, hr, hrr, hrl2, ?_, ?_, ?_⟩
      · rw [hres]; simp only [List.map_cons, List.sum_cons]; push_cast; ring
      · intro h; cases h
      · intro _; exact hcont.2.2
    · rw [if_neg hcont]
      refine ⟨_, [], rfl, ?_, ?_, ?_, ?_, ?_⟩
      · simp only; rw [read_replies_append, ha, hrep]
      · rfl
      · simp
      · intro _; rfl
      · intro h; exact absurd rfl h


/-- The test `off >= uio->uio_offset` that follows the inner loop of the
validation holds whenever that loop ends. -/
theorem readdir_walk_ge (hd : header) (uio_offset : Int) :
    ∀ (l : List sffs_dirent) (off off2 : Int),
      readdir_walk hd uio_offset l off = some off2 → uio_offset ≤ off2 := by
  intro l
  induction l with
  | nil =>
    intro off off2 h
    unfold readdir_walk at h
    split at h
    · cases h
    · cases h; omega
  | cons d rest ih =>
    intro off off2 h
    unfold readdir_walk at h
    split at h
    · exact ih _ _ h
    · cases h; omega

/-- A cursor that falls inside a buffer, not at its start, is never accepted:
the validation answers `EINVAL`, whether or not an entry starts there
(`none`: the walk left the entries of a buffer shorter than its `sf_len`). -/
theorem readdir_cached_inside_buffer (hd : header) (copyout : Nat → Nat → Int)
    (dir : vboxfs_node) (u : uio) (b : sffs_dirents) (rest : List sffs_dirents) (offset : Int)
    (hsk : readdir_skip u.uio_offset dir.sf_dir_list 0 = (b :: rest, offset))
    (hne : offset ≠ u.uio_offset) :
    readdir_cached hd copyout dir u = none ∨
    readdir_cached hd copyout dir u = some (EINVAL, u, []) := by
  unfold readdir_cached
  simp only [hsk, hne, ne_eq, not_false_eq_true, if_true]
  cases hw : readdir_walk hd u.uio_offset b.sf_entries offset with
  | none => exact Or.inl rfl
  | some off =>
    right
    have hge := readdir_walk_ge hd u.uio_offset b.sf_entries offset off hw
    simp only [ge_iff_le, hge, if_true]

/-- C1 fails on the code.  The listing is one buffer with "a" and "b", 80
bytes each, and the caller has room for one record of 16 bytes.  The call
from cursor 0 copies "a" and leaves the cursor 80, where "b" starts; the call
resumed there returns `EINVAL` and copies nothing, so "b" is never
delivered, while one call with room for everything copies "a" and "b". -/
theorem C1_readdir_resume_rejected :
    vboxfs_readdir hd_sample readdir_fails copyout_ok (readdir_args dir_ab 0 16) =
      some { error := 0, uio := { uio_offset := 80, uio_resid := 0, iov_base := 4112 },
             dir := dir_ab.v_data, a_eofflag := 0, copied := [entry_a.sf_entry], calls := [] } ∧
    vboxfs_readdir hd_sample readdir_fails copyout_ok (readdir_args dir_ab 80 16) =
      some { error := EINVAL, uio := { uio_offset := 80, uio_resid := 16, iov_base := 4096 },
             dir := dir_ab.v_data, a_eofflag := 0, copied := [], calls := [] } ∧
    (vboxfs_readdir hd_sample readdir_fails copyout_ok (readdir_args dir_ab 0 4096)).map
      (fun r => (r.error, r.copied)) = some (0, [entry_a.sf_entry, entry_b.sf_entry]) := by
  decide

/-- C2 fails on the code.  In the listing of one buffer with "a" and "b" the
entry "b" starts at byte 80, so 80 is an entry boundary; the cursors 0 (start
of the buffer) and 160 (length of the listing) are accepted, the cursor 80 is
rejected with `EINVAL`. -/
theorem C2_readdir_boundary_rejected :
    dir_list_wf hd_sample dir_ab.v_data.sf_dir_list ∧
    dirent_at hd_sample [entry_a, entry_b] 80 = some entry_b ∧
    (vboxfs_readdir hd_sample readdir_fails copyout_ok (readdir_args dir_ab 0 4096)).map
      (fun r => r.error) = some 0 ∧
    (vboxfs_readdir hd_sample readdir_fails copyout_ok (readdir_args dir_ab 160 4096)).map
      (fun r => r.error) = some 0 ∧
    (vboxfs_readdir hd_sample readdir_fails copyout_ok (readdir_args dir_ab 80 4096)).map
      (fun r => (r.error, r.copied)) = some (EINVAL, []) := by
  decide

/-- C3 fails on the code.  A call from cursor 0 that copies "." and "..", each
80 bytes of the listing, succeeds and leaves the cursor 200, the `d_fileno`
of the last record copied, not 0 + 80 + 80 = 160. -/
theorem C3_readdir_cursor_is_fileno :
    (vboxfs_readdir hd_sample readdir_fails copyout_ok (readdir_args dir_dots 0 4096)).map
      (fun r => (r.error, r.copied, r.uio.uio_offset)) =
      some (0, [entry_dot.sf_entry, entry_dotdot.sf_entry], 200) ∧
    (200 : Int) ≠ 0 + (entry_len hd_sample entry_dot + entry_len hd_sample entry_dotdot : Nat) ∧
    entry_dotdot.sf_entry.d_fileno = 200 := by
  decide

/-- C4 fails on the code.  The directory has identifier 7 and its parent 5;
the loop selects these nodes for "." and "..", but the records copied to the
caller carry the file numbers 100 and 200 that the provider placed in the
listing. -/
theorem C4_readdir_dot_fileno_from_provider :
    readdir_node dir_dots.v_data "." = some 7 ∧
    readdir_node dir_dots.v_data ".." = some 5 ∧
    (vboxfs_readdir hd_sample readdir_fails copyout_ok (readdir_args dir_dots 0 4096)).map
      (fun r => r.copied) =
      some [{ d_fileno := 100, d_reclen := 16, d_name := "." },
            { d_fileno := 200, d_reclen := 16, d_name := ".." }] := by
  decide

/-! ## Theorems: lookup -/

/-- C7 fails on the code.  In the directory with identifier 7, whose parent has
identifier 5 and which is not the root (identifier 1), the lookup of "."
returns `ENOENT` and no vnode, and the lookup of ".." with `ISDOTDOT` asks
`vn_vget_ino` for identifier 1, the root, not for 5. -/
theorem C7_lookup_dot_and_dotdot :
    vboxfs_lookup hd_sample vget_ok vget_ok dir_dots
        { cn_nameptr := ".", cn_nameiop := nameiop.LOOKUP, ISDOTDOT := false,
          MAKEENTRY := false, ISLASTCN := true, cn_lkflags := 0 } =
      { error := ENOENT, vpp := none, vget_id := none, cache_enter := [] } ∧
    vboxfs_lookup hd_sample vget_ok vget_ok dir_dots
        { cn_nameptr := "..", cn_nameiop := nameiop.LOOKUP, ISDOTDOT := true,
          MAKEENTRY := false, ISLASTCN := true, cn_lkflags := 0 } =
      { error := 0, vpp := some (lookup_vp.vn_vget_ino 1 1001), vget_id := some 1,
        cache_enter := [] } ∧
    dir_dots.v_data.sf_parent = some 5 := by
  decide

/-! ## Theorems: open -/

theorem vboxfs_close_error (sfprov_close : Nat → Int) (vp : vnode) :
    (vboxfs_close sfprov_close vp).error = 0 := by
  unfold vboxfs_close vfsnode_clear_dir_list vfsnode_invalidate_stat_cache
  cases h : vp.v_data.sf_file <;> simp [h]

theorem vboxfs_close_calls_of_no_handle (sfprov_close : Nat → Int) (vp : vnode)
    (h : vp.v_data.sf_file = none) : (vboxfs_close sfprov_close vp).calls = [] := by
  unfold vboxfs_close vfsnode_clear_dir_list vfsnode_invalidate_stat_cache
  simp [h]

/-- C11: when the provider's open fails with error `e`, `vboxfs_open` returns
`e` and leaves the node as it was, so that a node without a handle has none
and a `vboxfs_close` that follows returns 0 and calls the provider not at
all; when the provider's open succeeds, `vboxfs_open` returns 0 and the
node's handle is the file pointer the provider stored.  Either way the
provider is called once. -/
theorem C11_open_result (sfprov_open : Nat → String → Int × Option Nat)
    (sfprov_close : Nat → Int) (vp : vnode) :
    ((sfprov_open vp.v_data.vboxfsmp.sf_handle vp.v_data.sf_path).1 ≠ 0 →
      (vboxfs_open sfprov_open vp).error =
        (sfprov_open vp.v_data.vboxfsmp.sf_handle vp.v_data.sf_path).1 ∧
      (vboxfs_open sfprov_open vp).np = vp.v_data ∧
      (vp.v_data.sf_file = none →
        (vboxfs_open sfprov_open vp).np.sf_file = none ∧
        (vboxfs_close sfprov_close
          { vp with v_data := (vboxfs_open sfprov_open vp).np }).error = 0 ∧
        (vboxfs_close sfprov_close
          { vp with v_data := (vboxfs_open sfprov_open vp).np }).calls = [])) ∧
    ((sfprov_open vp.v_data.vboxfsmp.sf_handle vp.v_data.sf_path).1 = 0 →
      (vboxfs_open sfprov_open vp).error = 0 ∧
      (vboxfs_open sfprov_open vp).np.sf_file =
        (sfprov_open vp.v_data.vboxfsmp.sf_handle vp.v_data.sf_path).2) ∧
    (vboxfs_open sfprov_open vp).calls =
      [sfprov_call.sfprov_open vp.v_data.vboxfsmp.sf_handle vp.v_data.sf_path] := by
  refine ⟨?_, ?_, ?_⟩
  · intro hfail
    have hopen : vboxfs_open sfprov_open vp =
        { error := (sfprov_open vp.v_data.vboxfsmp.sf_handle vp.v_data.sf_path).1,
          np := vp.v_data,
          calls := [sfprov_call.sfprov_open vp.v_data.vboxfsmp.sf_handle vp.v_data.sf_path] } := by
      unfold vboxfs_open
      simp only [hfail, ne_eq, not_false_eq_true, if_true]
    rw [hopen]
    refine ⟨rfl, rfl, ?_⟩
    intro hnone
    refine ⟨hnone, ?_, ?_⟩
    · exact vboxfs_close_error sfprov_close _
    · exact vboxfs_close_calls_of_no_handle sfprov_close _ hnone
  · intro hok
    unfold vboxfs_open
    simp [hok]
  · unfold vboxfs_open
    by_cases h : (sfprov_open vp.v_data.vboxfsmp.sf_handle vp.v_data.sf_path).1 = 0 <;> simp [h]


/-- C11 at concrete inputs: an open that the provider denies with `EACCES`
(13) on a file that is not open, and an open that the provider grants. -/
theorem C11_open_result_witness :
    ((vboxfs_open open_denied file_closed).error = 13 ∧
      (vboxfs_open open_denied file_closed).np = file_closed.v_data ∧
      (vboxfs_close close_ok
        { file_closed with v_data := (vboxfs_open open_denied file_closed).np }).calls = []) ∧
    ((vboxfs_open open_ok file_closed).error = 0 ∧
      (vboxfs_open open_ok file_closed).np.sf_file = some 3) :=
  have h1 := (C11_open_result open_denied close_ok file_closed).1 (by decide)
  have h2 := (C11_open_result open_ok close_ok file_closed).2.1 rfl
  ⟨⟨h1.1, h1.2.1, (h1.2.2 rfl).2.2⟩, h2⟩

/-! ## Theorems: the attribute cache -/

/-- C19: after `vboxfs_close` and after `vboxfs_setattr`, for every node, every
request, every provider answer and every result, the node's `sf_stat_time`
is 0. -/
theorem C19_stat_cache_invalidated (sfprov_close : Nat → Int)
    (sfprov_set_attr : Nat → String → Nat → timespec → timespec → timespec → Int)
    (vp : vnode) (vap : vattr) :
    (vboxfs_close sfprov_close vp).np.sf_stat_time = 0 ∧
    (vboxfs_setattr sfprov_set_attr vp vap).np.sf_stat_time = 0 := by
  constructor
  · unfold vboxfs_close vfsnode_clear_dir_list vfsnode_invalidate_stat_cache
    cases h : vp.v_data.sf_file <;> simp [h]
  · unfold vboxfs_setattr vfsnode_invalidate_stat_cache
    by_cases hm : setattr_changes_meta vap = true
    · simp [hm]
    · by_cases hs : vap.va_size = cast_u 64 VNOVAL
      · simp [hm, hs]
      · cases ht : vp.v_type <;> simp [hm, hs]

/-- C18 fails on the code.  For a block device node `vboxfs_getattr` returns 0
with link count 2 and mode 0555, the values of a directory: its test
`vp->v_type & VDIR` is a bitwise and, which is not 0 for `VBLK` (3), `VSOCK`
(6) and `VFIFO` (7) as for `VDIR` (2).  The other attributes are as the claim
has them. -/
theorem C18_getattr_blk_as_directory :
    node_blk.v_type ≠ vtype.VDIR ∧
    vboxfs_getattr 77 node_blk =
      (0, { va_type := vtype.VBLK, va_nlink := 2, va_uid := 1001, va_gid := 1001,
            va_flags := 0, va_filerev := 0, va_vaflags := 0, va_fileid := 11, va_fsid := 77,
            va_atime := { tv_sec := -1, tv_nsec := -1 },
            va_mtime := { tv_sec := -1, tv_nsec := -1 },
            va_ctime := { tv_sec := -1, tv_nsec := -1 },
            va_mode := 0o555, va_size := 4000, va_blocksize := 512, va_bytes := 8 }) ∧
    (List.filter getattr_type_and_VDIR
      [vtype.VNON, vtype.VREG, vtype.VDIR, vtype.VBLK, vtype.VCHR, vtype.VLNK,
       vtype.VSOCK, vtype.VFIFO, vtype.VBAD, vtype.VMARKER]) =
      [vtype.VDIR, vtype.VBLK, vtype.VSOCK, vtype.VFIFO] := by
  decide

/-! ## Theorems: lookup of a name that is not resolved -/

/-- C13: in a directory, for every name other than the reserved file name
looked up without `ISDOTDOT`, `vboxfs_lookup` returns `EROFS` when the name is
the last component and the operation is `CREATE` or `RENAME`, `ENOENT` in
every other case; it stores no vnode and asks no `vget`. -/
theorem C13_lookup_unresolved (hd : header) (vn_vget_ino vboxfs_vget : Nat → Int × Nat)
    (dvp : vnode) (cnp : componentname)
    (hdir : dvp.v_type = vtype.VDIR) (hname : cnp.cn_nameptr ≠ hd.THEFILE_NAME)
    (hdotdot : cnp.ISDOTDOT = false) :
    (vboxfs_lookup hd vn_vget_ino vboxfs_vget dvp cnp).error =
      (if cnp.ISLASTCN = true ∧
          (cnp.cn_nameiop = nameiop.CREATE ∨ cnp.cn_nameiop = nameiop.RENAME)
       then EROFS else ENOENT) ∧
    (vboxfs_lookup hd vn_vget_ino vboxfs_vget dvp cnp).vpp = none ∧
    (vboxfs_lookup hd vn_vget_ino vboxfs_vget dvp cnp).vget_id = none := by
  unfold vboxfs_lookup
  simp [hdir, hname, hdotdot]

/-- C13 at a concrete request: the creation of "x" in a directory. -/
theorem C13_lookup_unresolved_witness :
    (vboxfs_lookup hd_sample vget_ok vget_ok dir_dots
      { cn_nameptr := "x", cn_nameiop := nameiop.CREATE, ISDOTDOT := false,
        MAKEENTRY := true, ISLASTCN := true, cn_lkflags := 0 }).error = EROFS ∧
    (vboxfs_lookup hd_sample vget_ok vget_ok dir_dots
      { cn_nameptr := "x", cn_nameiop := nameiop.CREATE, ISDOTDOT := false,
        MAKEENTRY := true, ISLASTCN := true, cn_lkflags := 0 }).vpp = none :=
  have h := C13_lookup_unresolved hd_sample vget_ok vget_ok dir_dots
    { cn_nameptr := "x", cn_nameiop := nameiop.CREATE, ISDOTDOT := false,
      MAKEENTRY := true, ISLASTCN := true, cn_lkflags := 0 } rfl (by decide) rfl
  ⟨h.1, h.2.1⟩

/-! ## Theorems: the provider calls of a read -/

/-- C15 fails on the code.  A read of 7 bytes at file offset 100 into the
buffer at 4096, from a provider that delivers 3 bytes per call, makes three
provider calls, for 7, 4 and 1 bytes, each at file offset 100 and into the
buffer at 4096, and leaves the request's offset 100: neither `uio_offset` nor
`iov_base` advances with the bytes delivered. -/
theorem C15_read_offset_not_advanced :
    vboxfs_read hd_sample read_three file_open
        { uio_offset := 100, uio_resid := 7, iov_base := 4096 } =
      some { error := 0, uio := { uio_offset := 100, uio_resid := 0, iov_base := 4096 },
             calls := [sfprov_call.sfprov_read 3 4096 100 7,
                       sfprov_call.sfprov_read 3 4096 100 4,
                       sfprov_call.sfprov_read 3 4096 100 1],
             replies := [(0, 3), (0, 3), (0, 1)] } := by
  decide

/-! ## Theorems: readdir, the enumeration and the end of the listing -/

/-- The three ways through `vboxfs_readdir`: the node has no listing and the
enumeration fails; it has none and the enumeration succeeds; it has one. -/
theorem vboxfs_readdir_eq (hd : header)
    (sfprov_readdir : Nat → String → Int × List sffs_dirents)
    (copyout : Nat → Nat → Int) (ap : vop_readdir_args) :
    vboxfs_readdir hd sfprov_readdir copyout ap =
      if ap.a_vp.v_data.sf_dir_list = [] then
        if (sfprov_readdir ap.a_vp.v_data.vboxfsmp.sf_handle ap.a_vp.v_data.sf_path).1 ≠ 0 then
          some { error := (sfprov_readdir ap.a_vp.v_data.vboxfsmp.sf_handle
                            ap.a_vp.v_data.sf_path).1,
                 uio := ap.a_uio,
                 dir := { ap.a_vp.v_data with sf_dir_list :=
                   (sfprov_readdir ap.a_vp.v_data.vboxfsmp.sf_handle ap.a_vp.v_data.sf_path).2 },
                 a_eofflag := ap.a_eofflag, copied := [],
                 calls := [sfprov_call.sfprov_readdir ap.a_vp.v_data.vboxfsmp.sf_handle
                   ap.a_vp.v_data.sf_path] }
        else
          (readdir_cached hd copyout { ap.a_vp.v_data with sf_dir_list :=
              (sfprov_readdir ap.a_vp.v_data.vboxfsmp.sf_handle ap.a_vp.v_data.sf_path).2 }
            ap.a_uio).map (fun r =>
              { error := r.1, uio := r.2.1,
                dir := { ap.a_vp.v_data with sf_dir_list :=
                  (sfprov_readdir ap.a_vp.v_data.vboxfsmp.sf_handle ap.a_vp.v_data.sf_path).2 },
                a_eofflag := ap.a_eofflag, copied := r.2.2,
                calls := [sfprov_call.sfprov_readdir ap.a_vp.v_data.vboxfsmp.sf_handle
                  ap.a_vp.v_data.sf_path] })
      else
        (readdir_cached hd copyout ap.a_vp.v_data ap.a_uio).map (fun r =>
          { error := r.1, uio := r.2.1, dir := ap.a_vp.v_data, a_eofflag := ap.a_eofflag,
            copied := r.2.2, calls := [] }) := by
  unfold vboxfs_readdir
  by_cases hl : ap.a_vp.v_data.sf_dir_list = []
  · by_cases he : (sfprov_readdir ap.a_vp.v_data.vboxfsmp.sf_handle ap.a_vp.v_data.sf_path).1 = 0
    · simp only [hl, if_true, he, ne_eq, not_true_eq_false, if_false]
      cases readdir_cached hd copyout _ ap.a_uio <;> rfl
    · simp only [hl, if_true, he, ne_eq, not_false_eq_true]
  · simp only [hl, if_false, ne_eq, not_true_eq_false]
    cases readdir_cached hd copyout _ ap.a_uio <;> rfl

theorem readdir_skip_end (c : Int) :
    ∀ (l : List sffs_dirents) (off : Int), c = off + (dir_list_len l : Int) →
      readdir_skip c l off = ([], c) := by
  intro l
  induction l with
  | nil =>
    intro off h
    simp only [dir_list_len, List.map_nil, List.sum_nil, Nat.cast_zero, add_zero] at h
    simp [readdir_skip, h]
  | cons b next ih =>
    intro off h
    simp only [dir_list_len, List.map_cons, List.sum_cons, Nat.cast_add] at h
    have hle : off + (b.sf_len : Int) ≤ c := by
      have : (0 : Int) ≤ (((next.map (fun b => b.sf_len)).sum : Nat) : Int) := Int.natCast_nonneg _
      omega
    unfold readdir_skip
    rw [if_pos hle]
    exact ih (off + b.sf_len) (by simp only [dir_list_len]; omega)

/-- The caller's `*a_eofflag` after any `vboxfs_readdir` is what it was. -/
theorem vboxfs_readdir_eofflag (hd : header)
    (sfprov_readdir : Nat → String → Int × List sffs_dirents)
    (copyout : Nat → Nat → Int) (ap : vop_readdir_args) (r : readdir_result)
    (h : vboxfs_readdir hd sfprov_readdir copyout ap = some r) :
    r.a_eofflag = ap.a_eofflag := by
  rw [vboxfs_readdir_eq] at h
  split at h
  · split at h
    · cases h; rfl
    · simp only [Option.map_eq_some'] at h
      obtain ⟨x, -, hx⟩ := h
      rw [← hx]
  · simp only [Option.map_eq_some'] at h
    obtain ⟨x, -, hx⟩ := h
    rw [← hx]

/-- C14, as the code has it: no `vboxfs_readdir` reports the end of the
directory, the caller's `*a_eofflag` being after every call what it was
before; called on a node that has its listing with the cursor equal to the
total length of the listing, it returns 0, copies no entry and leaves the
request, cursor included, as it was. -/
theorem C14_readdir_at_end (hd : header)
    (sfprov_readdir : Nat → String → Int × List sffs_dirents)
    (copyout : Nat → Nat → Int) (ap : vop_readdir_args)
    (hlist : ap.a_vp.v_data.sf_dir_list ≠ [])
    (hend : ap.a_uio.uio_offset = (dir_list_len ap.a_vp.v_data.sf_dir_list : Int)) :
    vboxfs_readdir hd sfprov_readdir copyout ap =
      some { error := 0, uio := ap.a_uio, dir := ap.a_vp.v_data, a_eofflag := ap.a_eofflag,
             copied := [], calls := [] } ∧
    (∀ (ap2 : vop_readdir_args) (r : readdir_result),
      vboxfs_readdir hd sfprov_readdir copyout ap2 = some r → r.a_eofflag = ap2.a_eofflag) := by
  refine ⟨?_, fun ap2 r h => vboxfs_readdir_eofflag hd sfprov_readdir copyout ap2 r h⟩
  have hsk : readdir_skip ap.a_uio.uio_offset ap.a_vp.v_data.sf_dir_list 0 =
      ([], ap.a_uio.uio_offset) := readdir_skip_end _ _ 0 (by rw [hend]; simp)
  have hc : readdir_cached hd copyout ap.a_vp.v_data ap.a_uio = some (0, ap.a_uio, []) := by
    unfold readdir_cached
    simp only [hsk, ne_eq, not_true_eq_false, if_false]
    rfl
  rw [vboxfs_readdir_eq, if_neg hlist, hc]
  rfl

/-- C14 at a concrete request: the listing of "a" and "b", 160 bytes, read at
cursor 160 with the caller's end-of-directory flag at 0. -/
theorem C14_readdir_at_end_witness :
    vboxfs_readdir hd_sample readdir_fails copyout_ok (readdir_args dir_ab 160 4096) =
      some { error := 0, uio := { uio_offset := 160, uio_resid := 4096, iov_base := 4096 },
             dir := dir_ab.v_data, a_eofflag := 0, copied := [], calls := [] } :=
  (C14_readdir_at_end hd_sample readdir_fails copyout_ok (readdir_args dir_ab 160 4096)
    (by decide) (by decide)).1

/-- C14 as stated fails: the call that copies the last entry of the listing
and the call at the end cursor both return with the caller's end-of-directory
flag 0, as it was before the call: the end is not reported. -/
theorem C14_readdir_eof_not_reported :
    (vboxfs_readdir hd_sample readdir_fails copyout_ok (readdir_args dir_ab 0 4096)).map
      (fun r => (r.error, r.copied, r.a_eofflag)) =
      some (0, [entry_a.sf_entry, entry_b.sf_entry], 0) ∧
    (vboxfs_readdir hd_sample readdir_fails copyout_ok (readdir_args dir_ab 160 4096)).map
      (fun r => (r.error, r.copied, r.a_eofflag)) = some (0, [], 0) := by
  decide

/-! ## Theorems: the loop of a read ends -/

/-- The loop of `vboxfs_read`, from a residual count below its bound: it
returns, with one call per answer; the residual count has gone down by the
bytes of all answers; every answer that is followed by another carried no
error and at least one byte and left a positive residual count; and from a
positive residual count there are at most as many answers as that count. -/
theorem vboxfs_read_loop_trace (hd : header) (sfprov_read : Nat → sfprov_call → Int × Nat)
    (fp : Nat) :
    ∀ (fuel : Nat) (u : uio) (calls : List sfprov_call) (replies : List (Int × Nat)),
      u.uio_resid.toNat < fuel →
      ∃ r new,
        vboxfs_read_loop hd sfprov_read fp fuel u calls replies = some r ∧
        r.replies = replies ++ new ∧
        r.calls.length = calls.length + new.length ∧
        r.uio.uio_resid = u.uio_resid - (((new.map (fun p => p.2)).sum : Nat) : Int) ∧
        (∀ pre p post, new = pre ++ p :: post → post ≠ [] →
          p.1 = 0 ∧ 0 < p.2 ∧
          0 < u.uio_resid - ((((pre ++ [p]).map (fun p => p.2)).sum : Nat) : Int)) ∧
        (0 < u.uio_resid → (new.length : Int) ≤ u.uio_resid) ∧
        1 ≤ new.length := by
  intro fuel
  induction fuel with
  | zero => intro u calls replies h; omega
  | succ fuel ih =>
    intro u calls replies hfuel
    generalize hc : sfprov_call.sfprov_read fp u.iov_base (cast_u 64 u.uio_offset)
      (min_u_int hd.MAXPHYS u.uio_resid) = call
    generalize ha : sfprov_read calls.length call = reply
    unfold vboxfs_read_loop
    simp only [hc, ha]
    by_cases hcont : reply.1 = 0 ∧ u.uio_resid - ((reply.2 % 2 ^ 32 : Nat) : Int) > 0 ∧
        reply.2 % 2 ^ 32 > 0
    · rw [if_pos hcont]
      obtain ⟨r, new, hr, hrep, hlen, hres, hdec, hbound, hone⟩ :=
        ih { u with uio_resid := u.uio_resid - ((reply.2 % 2 ^ 32 : Nat) : Int) }
          (calls ++ [call]) (replies ++ [(reply.1, reply.2 % 2 ^ 32)])
          (by simp only; omega)
      simp only at hres hdec hbound
      refine ⟨r, (reply.1, reply.2 % 2 ^ 32) :: new, hr, ?_, ?_, ?_, ?_, ?_, ?_⟩
      · rw [hrep]; simp
      · rw [hlen]; simp; omega
      · rw [hres]; simp only [List.map_cons, List.sum_cons]; push_cast; ring
      · intro pre p post hsplit hpost
        cases pre with
        | nil =>
          simp only [List.nil_append, List.cons.injEq] at hsplit
          obtain ⟨hp, -⟩ := hsplit
          subst hp
          refine ⟨hcont.1, hcont.2.2, ?_⟩
          simp only [List.nil_append, List.map_cons, List.map_nil, List.sum_cons,
            List.sum_nil, add_zero]
          exact hcont.2.1
        | cons q pre2 =>
          simp only [List.cons_append, List.cons.injEq] at hsplit
          obtain ⟨hq, hnew⟩ := hsplit
          subst hq
          obtain ⟨h1, h2, h3⟩ := hdec pre2 p post hnew hpost
          refine ⟨h1, h2, ?_⟩
          simp only [List.cons_append, List.map_cons, List.sum_cons]
          push_cast
          push_cast at h3
          omega
      · intro hpos
        have := hbound hcont.2.1
        simp only [List.length_cons]
        push_cast
        omega
      · simp
    · rw [if_neg hcont]
      refine ⟨_, [(reply.1, reply.2 % 2 ^ 32)], rfl, rfl, ?_, ?_, ?_, ?_, ?_⟩
      · simp
      · simp
      · intro pre p post hsplit hpost
        exfalso
        have hl := congrArg List.length hsplit
        simp only [List.length_append, List.length_cons, List.length_nil] at hl
        have hp : 0 < post.length := List.length_pos.mpr hpost
        omega
      · intro hpos
        simp only [List.length_singleton, Nat.cast_one]
        omega
      · simp

/-- C20: for a regular file with a provider handle and a request for at least
one byte, whatever the provider answers, `vboxfs_read` returns after a last
provider call.  Every call that is followed by another was answered with no
error and at least one byte and left a positive residual count, so the
residual count before a call is less than before the preceding one; there
was at least one call and there were at most as many as the residual count
of the request. -/
theorem C20_read_loop_terminates (hd : header)
    (sfprov_read : Nat → sfprov_call → Int × Nat) (vp : vnode) (u : uio) (fp : Nat)
    (hreg : vp.v_type = vtype.VREG) (hfile : vp.v_data.sf_file = some fp)
    (hpos : 0 < u.uio_resid) :
    ∃ r, vboxfs_read hd sfprov_read vp u = some r ∧
      r.replies = read_replies sfprov_read r.calls ∧
      r.uio.uio_resid = resid_before u r.replies r.replies.length ∧
      (∀ k, k + 1 < r.replies.length →
        ∃ p, r.replies[k]? = some p ∧ p.1 = 0 ∧ 0 < p.2 ∧
          0 < resid_before u r.replies (k + 1) ∧
          resid_before u r.replies (k + 1) < resid_before u r.replies k) ∧
      1 ≤ r.calls.length ∧ (r.calls.length : Int) ≤ u.uio_resid := by
  obtain ⟨r, new, hr, hrep, hlen, hres, hdec, hbound, hone⟩ :=
    vboxfs_read_loop_trace hd sfprov_read fp (u.uio_resid.toNat + 1) u [] []
      (Nat.lt_succ_self _)
  obtain ⟨r2, rest, hr2, hspec, -⟩ :=
    vboxfs_read_loop_spec hd sfprov_read fp (u.uio_resid.toNat + 1) u [] []
      (Nat.lt_succ_self _) (by simp [read_replies])
  have hrr : r2 = r := by
    rw [hr] at hr2; exact (Option.some.inj hr2).symm
  subst hrr
  simp only [List.nil_append, List.length_nil, Nat.zero_add] at hrep hlen
  have hne : u.uio_resid ≠ 0 := by omega
  have hread : vboxfs_read hd sfprov_read vp u =
      if u.uio_resid ≠ r2.uio.uio_resid then some { r2 with error := 0 } else some r2 := by
    unfold vboxfs_read
    simp only [hreg, hfile, hr]
    simp [hne]
  have hfacts : r2.replies = read_replies sfprov_read r2.calls ∧
      r2.uio.uio_resid = resid_before u r2.replies r2.replies.length ∧
      (∀ k, k + 1 < r2.replies.length →
        ∃ p, r2.replies[k]? = some p ∧ p.1 = 0 ∧ 0 < p.2 ∧
          0 < resid_before u r2.replies (k + 1) ∧
          resid_before u r2.replies (k + 1) < resid_before u r2.replies k) ∧
      1 ≤ r2.calls.length ∧ (r2.calls.length : Int) ≤ u.uio_resid := by
    refine ⟨hspec, ?_, ?_, ?_, ?_⟩
    · rw [hres, hrep]; simp [resid_before]
    · intro k hk
      rw [hrep] at hk ⊢
      have hk2 : k < new.length := by omega
      have hsplit : new = new.take k ++ new[k] :: new.drop (k + 1) := by
        conv_lhs => rw [← List.take_append_drop k new, List.drop_eq_getElem_cons hk2]
      have hpost : new.drop (k + 1) ≠ [] := by
        intro h
        have := congrArg List.length h
        simp only [List.length_drop, List.length_nil] at this
        omega
      obtain ⟨h1, h2, h3⟩ := hdec _ _ _ hsplit hpost
      have htake : new.take (k + 1) = new.take k ++ [new[k]] := by
        rw [List.take_succ, List.getElem?_eq_getElem hk2]; rfl
      refine ⟨new[k], List.getElem?_eq_getElem hk2, h1, h2, ?_, ?_⟩
      · simp only [resid_before, htake]; exact h3
      · simp only [resid_before, htake, List.map_append, List.sum_append, List.map_cons,
          List.map_nil, List.sum_cons, List.sum_nil, add_zero]
        push_cast
        omega
    · rw [hlen]; exact hone
    · rw [hlen]; exact hbound hpos
  by_cases hch : u.uio_resid ≠ r2.uio.uio_resid
  · rw [if_pos hch] at hread
    exact ⟨_, hread, hfacts⟩
  · rw [if_neg hch] at hread
    exact ⟨_, hread, hfacts⟩

/-- C20 at a concrete request: 7 bytes from a provider that delivers 3 per
call; there are at most 7 provider calls. -/
theorem C20_read_loop_terminates_witness :
    ∃ r, vboxfs_read hd_sample read_three file_open
        { uio_offset := 100, uio_resid := 7, iov_base := 4096 } = some r ∧
      1 ≤ r.calls.length ∧ (r.calls.length : Int) ≤ 7 := by
  obtain ⟨r, hr, -, -, -, h1, h2⟩ := C20_read_loop_terminates hd_sample read_three file_open
    { uio_offset := 100, uio_resid := 7, iov_base := 4096 } 3 rfl rfl (by decide)
  exact ⟨r, hr, h1, h2⟩

/-! ## Theorems: the copy loop of readdir -/

theorem entry_len_pos (hd : header) (hS : 0 < hd.sizeof_sffs_stat_t) (e : sffs_dirent) :
    0 < entry_len hd e := by
  unfold entry_len; omega

/-- The entry found at the byte offset that the entries before it add up to. -/
theorem dirent_at_prefix (hd : header) (hS : 0 < hd.sizeof_sffs_stat_t)
    (e : sffs_dirent) (todo : List sffs_dirent) :
    ∀ (done : List sffs_dirent),
      dirent_at hd (done ++ e :: todo) (((done.map (entry_len hd)).sum : Nat) : Int) = some e := by
  intro done
  induction done with
  | nil => simp [dirent_at]
  | cons d done2 ih =>
    have hd0 := entry_len_pos hd hS d
    simp only [List.cons_append, List.map_cons, List.sum_cons]
    unfold dirent_at
    have h1 : ¬ (((entry_len hd d + (done2.map (entry_len hd)).sum : Nat) : Int) = 0) := by
      omega
    have h2 : ¬ (((entry_len hd d + (done2.map (entry_len hd)).sum : Nat) : Int) <
        (entry_len hd d : Int)) := by
      omega
    rw [if_neg h1, if_neg h2]
    have h3 : ((entry_len hd d + (done2.map (entry_len hd)).sum : Nat) : Int) -
        (entry_len hd d : Int) = (((done2.map (entry_len hd)).sum : Nat) : Int) := by
      omega
    rw [h3]
    exact ih

/-- On a listing that is the encoding of its entries the copy loop, from an
entry boundary of its buffer and with iterations enough for the entries
ahead, does what `copy_entries` does on the entries ahead. -/
theorem readdir_copy_eq (hd : header) (hS : 0 < hd.sizeof_sffs_stat_t)
    (copyout : Nat → Nat → Int) (dir : vboxfs_node) :
    ∀ (fuel : Nat) (next : List sffs_dirents) (cur : sffs_dirents)
      (done todo : List sffs_dirent) (offset : Int) (u : uio) (out : List dirent),
      cur.sf_entries = done ++ todo →
      cur.sf_len = ((done ++ todo).map (entry_len hd)).sum →
      offset = (((done.map (entry_len hd)).sum : Nat) : Int) →
      dir_list_wf hd next →
      todo.length + 1 + (next.map (fun b => b.sf_entries.length + 1)).sum ≤ fuel →
      readdir_copy hd copyout dir fuel (cur :: next) offset u out =
        some ((copy_entries copyout (todo ++ dir_list_entries next) u).1,
              (copy_entries copyout (todo ++ dir_list_entries next) u).2.1,
              out ++ (copy_entries copyout (todo ++ dir_list_entries next) u).2.2) := by
  intro fuel
  induction fuel with
  | zero => intro next cur done todo offset u out _ _ _ _ hf; omega
  | succ fuel ih =>
    intro next cur done todo offset u out hent hlen hoff hwf hf
    rw [readdir_copy]
    cases todo with
    | nil =>
      have hge : offset ≥ (cur.sf_len : Int) := by
        rw [hlen, hoff]; simp
      rw [if_pos hge]
      cases next with
      | nil => simp [readdir_copy, dir_list_entries, copy_entries]
      | cons b next2 =>
        have hb : b.sf_len = (b.sf_entries.map (entry_len hd)).sum :=
          hwf b (List.mem_cons_self _ _)
        have hwf2 : dir_list_wf hd next2 := fun x hx => hwf x (List.mem_cons_of_mem _ hx)
        have := ih next2 b [] b.sf_entries 0 u out rfl (by simpa using hb) (by simp) hwf2
          (by simp only [List.length_nil, List.map_cons, List.sum_cons] at hf; omega)
        rw [this]
        simp [dir_list_entries]
    | cons e todo2 =>
      have he := entry_len_pos hd hS e
      have hlt : ¬ (offset ≥ (cur.sf_len : Int)) := by
        rw [hlen, hoff]
        simp only [List.map_append, List.map_cons, List.sum_append, List.sum_cons]
        omega
      rw [if_neg hlt, hent, hoff, dirent_at_prefix hd hS e todo2 done]
      simp only [List.cons_append, copy_entries]
      by_cases hbig : (e.sf_entry.d_reclen : Int) > u.uio_resid
      · simp [hbig]
      · simp only [hbig, if_false]
        by_cases herr : (uiomove copyout e.sf_entry.d_reclen u).1 = 0
        · simp only [herr, ne_eq, not_true_eq_false, if_false]
          have := ih next cur (done ++ [e]) todo2
            ((((done.map (entry_len hd)).sum : Nat) : Int) + (entry_len hd e : Int))
            { (uiomove copyout e.sf_entry.d_reclen u).2 with
                uio_offset := e.sf_entry.d_fileno }
            (out ++ [e.sf_entry])
            (by rw [hent]; simp) (by rw [hlen]; simp)
            (by simp only [List.map_append, List.map_cons, List.map_nil, List.sum_append,
                  List.sum_cons, List.sum_nil]; omega)
            hwf (by simp only [List.length_cons] at hf; omega)
          rw [← hoff] at this ⊢
          rw [this]
          simp
        · simp [herr]


/-- What `copy_entries` does with room that is not negative: it copies the
records of a first part of the entries, whole and in order, each to the
address the records before it end at and each by a copy that succeeds; it
takes their lengths off the residual count, which stays non-negative, and
stops at the end of the entries, at a record longer than the room left, or
at a record that fits and whose copy fails, with that error. -/
theorem copy_entries_spec (copyout : Nat → Nat → Int) :
    ∀ (es : List sffs_dirent) (u : uio), 0 ≤ u.uio_resid →
      ∃ taken post, es = taken ++ post ∧
        (copy_entries copyout es u).2.2 = taken.map (fun e => e.sf_entry) ∧
        (copy_entries copyout es u).2.1.uio_resid =
          u.uio_resid - (((taken.map (fun e => e.sf_entry.d_reclen)).sum : Nat) : Int) ∧
        0 ≤ (copy_entries copyout es u).2.1.uio_resid ∧
        (copy_entries copyout es u).2.1.iov_base =
          u.iov_base + (taken.map (fun e => e.sf_entry.d_reclen)).sum ∧
        (taken = [] → (copy_entries copyout es u).2.1 = u) ∧
        (∀ t1 e t2, taken = t1 ++ e :: t2 →
          copyout (u.iov_base + (t1.map (fun e => e.sf_entry.d_reclen)).sum)
            e.sf_entry.d_reclen = 0) ∧
        (((copy_entries copyout es u).1 = 0 ∧
            (post = [] ∨ ∃ e post2, post = e :: post2 ∧
              (e.sf_entry.d_reclen : Int) > (copy_entries copyout es u).2.1.uio_resid)) ∨
         ((copy_entries copyout es u).1 ≠ 0 ∧
            ∃ e post2, post = e :: post2 ∧
              (e.sf_entry.d_reclen : Int) ≤ (copy_entries copyout es u).2.1.uio_resid ∧
              copyout (copy_entries copyout es u).2.1.iov_base e.sf_entry.d_reclen =
                (copy_entries copyout es u).1)) := by
  intro es
  induction es with
  | nil =>
    intro u hu
    refine ⟨[], [], rfl, rfl, by simp [copy_entries], by simpa [copy_entries] using hu,
      by simp [copy_entries], fun _ => rfl, ?_, Or.inl ⟨rfl, Or.inl rfl⟩⟩
    intro t1 e t2 h
    cases t1 <;> cases h
  | cons e es ih =>
    intro u hu
    have hnil : ∀ (t1 : List sffs_dirent) (x : sffs_dirent) (t2 : List sffs_dirent),
        ([] : List sffs_dirent) = t1 ++ x :: t2 →
        copyout (u.iov_base + (t1.map (fun e => e.sf_entry.d_reclen)).sum)
          x.sf_entry.d_reclen = 0 := by
      intro t1 x t2 h
      cases t1 <;> cases h
    by_cases hbig : (e.sf_entry.d_reclen : Int) > u.uio_resid
    · have hc : copy_entries copyout (e :: es) u = (0, u, []) := by
        simp [copy_entries, hbig]
      rw [hc]
      exact ⟨[], e :: es, rfl, rfl, by simp, hu, by simp, fun _ => rfl, hnil,
        Or.inl ⟨rfl, Or.inr ⟨e, es, rfl, hbig⟩⟩⟩
    · by_cases herr : copyout u.iov_base e.sf_entry.d_reclen = 0
      · obtain ⟨u2, hu2⟩ : ∃ u2 : uio, u2 = uio.mk (e.sf_entry.d_fileno : Int)
            (u.uio_resid - (e.sf_entry.d_reclen : Int))
            (u.iov_base + e.sf_entry.d_reclen) := ⟨_, rfl⟩
        have hu2r : u2.uio_resid = u.uio_resid - (e.sf_entry.d_reclen : Int) := by rw [hu2]
        have hu2b : u2.iov_base = u.iov_base + e.sf_entry.d_reclen := by rw [hu2]
        obtain ⟨taken, post, hsplit, hcop, hres, hpos, hbase, -, hok, hstop⟩ :=
          ih u2 (by omega)
        have hc : copy_entries copyout (e :: es) u =
            ((copy_entries copyout es u2).1, (copy_entries copyout es u2).2.1,
             e.sf_entry :: (copy_entries copyout es u2).2.2) := by
          rw [hu2]
          simp [copy_entries, hbig, uiomove, herr]
        rw [hc]
        refine ⟨e :: taken, post, by rw [hsplit]; rfl, by simp [hcop], ?_, hpos, ?_,
          (fun h => by cases h), ?_, hstop⟩
        · simp only
          rw [hres, hu2r]
          simp only [List.map_cons, List.sum_cons]
          omega
        · simp only
          rw [hbase, hu2b]
          simp only [List.map_cons, List.sum_cons]
          omega
        · intro t1 x t2 h
          cases t1 with
          | nil =>
            simp only [List.nil_append, List.cons.injEq] at h
            rw [← h.1]
            simpa using herr
          | cons y t3 =>
            simp only [List.cons_append, List.cons.injEq] at h
            have := hok t3 x t2 h.2
            rw [hu2b] at this
            rw [← h.1]
            simp only [List.map_cons, List.sum_cons]
            rw [← Nat.add_assoc]
            exact this
      · have hc : copy_entries copyout (e :: es) u =
            (copyout u.iov_base e.sf_entry.d_reclen, u, []) := by
          simp [copy_entries, hbig, uiomove, herr]
        rw [hc]
        exact ⟨[], e :: es, rfl, rfl, by simp, hu, by simp, fun _ => rfl, hnil,
          Or.inr ⟨herr, e, es, rfl, by simp only; omega, rfl⟩⟩

theorem dir_list_len_append (l1 l2 : List sffs_dirents) :
    dir_list_len (l1 ++ l2) = dir_list_len l1 + dir_list_len l2 := by
  simp [dir_list_len]

/-- The first loop of `vboxfs_readdir` stops at the first buffer that ends past
the cursor, with the lengths of the buffers before it as `offset`; the
buffers it skipped end at or before the cursor. -/
theorem readdir_skip_spec (c : Int) :
    ∀ (l : List sffs_dirents) (off : Int),
      ∃ skipped rest, l = skipped ++ rest ∧
        readdir_skip c l off = (rest, off + (dir_list_len skipped : Int)) ∧
        (∀ b rest2, rest = b :: rest2 →
          c < off + (dir_list_len skipped : Int) + (b.sf_len : Int)) ∧
        (skipped ≠ [] → off + (dir_list_len skipped : Int) ≤ c) := by
  intro l
  induction l with
  | nil =>
    intro off
    exact ⟨[], [], rfl, by simp [readdir_skip, dir_list_len], (fun b rest2 h => by cases h),
      fun h => absurd rfl h⟩
  | cons b next ih =>
    intro off
    by_cases hle : off + (b.sf_len : Int) ≤ c
    · obtain ⟨skipped, rest, hsplit, hsk, hnext, hskipped⟩ := ih (off + b.sf_len)
      refine ⟨b :: skipped, rest, by rw [hsplit]; rfl, ?_, ?_, ?_⟩
      · rw [readdir_skip, if_pos hle, hsk]
        simp only [dir_list_len, List.map_cons, List.sum_cons, Nat.cast_add, add_assoc]
      · intro b2 rest2 h
        have := hnext b2 rest2 h
        simp only [dir_list_len, List.map_cons, List.sum_cons, Nat.cast_add] at this ⊢
        omega
      · intro _
        by_cases hs : skipped = []
        · subst hs
          simp only [dir_list_len, List.map_cons, List.map_nil, List.sum_cons, List.sum_nil,
            Nat.add_zero]
          exact hle
        · have := hskipped hs
          simp only [dir_list_len, List.map_cons, List.sum_cons, Nat.cast_add] at this ⊢
          omega
    · refine ⟨[], b :: next, rfl, ?_, ?_, fun h => absurd rfl h⟩
      · rw [readdir_skip, if_neg hle]; simp [dir_list_len]
      · intro b2 rest2 h
        cases h
        simp only [dir_list_len, List.map_nil, List.sum_nil, Nat.cast_zero, add_zero]
        omega

/-- The inner loop of the validation ends inside a buffer that reaches the
cursor. -/
theorem readdir_walk_some (hd : header) (c : Int) :
    ∀ (es : List sffs_dirent) (off : Int),
      c ≤ off + (((es.map (entry_len hd)).sum : Nat) : Int) →
      ∃ off2, readdir_walk hd c es off = some off2 := by
  intro es
  induction es with
  | nil =>
    intro off h
    simp only [List.map_nil, List.sum_nil, Nat.cast_zero, add_zero] at h
    have : ¬ off < c := by omega
    exact ⟨off, by simp [readdir_walk, this]⟩
  | cons d rest ih =>
    intro off h
    by_cases hlt : off < c
    · rw [readdir_walk, if_pos hlt]
      apply ih
      simp only [List.map_cons, List.sum_cons] at h
      omega
    · exact ⟨off, by rw [readdir_walk, if_neg hlt]⟩

theorem dir_list_wf_append (hd : header) (l1 l2 : List sffs_dirents)
    (h : dir_list_wf hd (l1 ++ l2)) : dir_list_wf hd l1 ∧ dir_list_wf hd l2 :=
  ⟨fun b hb => h b (List.mem_append_left _ hb), fun b hb => h b (List.mem_append_right _ hb)⟩

/-- A listing that is the encoding of its entries is as long as its entries
together. -/
theorem dir_list_len_of_wf (hd : header) :
    ∀ (l : List sffs_dirents), dir_list_wf hd l →
      dir_list_len l = ((dir_list_entries l).map (entry_len hd)).sum := by
  intro l
  induction l with
  | nil => intro _; simp [dir_list_len, dir_list_entries]
  | cons b next ih =>
    intro h
    have hb := h b (List.mem_cons_self _ _)
    have hn := ih (fun x hx => h x (List.mem_cons_of_mem _ hx))
    simp only [dir_list_len, dir_list_entries, List.map_cons, List.sum_cons,
      List.flatMap_cons, List.map_append, List.sum_append] at hn ⊢
    rw [hb, hn]

/-- When the first loop stops at an `offset` that is not the cursor, the cursor
is not where a buffer of the listing starts, nor the end of the listing. -/
theorem readdir_skip_no_boundary (c : Int) (skipped rest : List sffs_dirents)
    (hnext : ∀ b rest2, rest = b :: rest2 →
      c < (dir_list_len skipped : Int) + (b.sf_len : Int))
    (hskipped : skipped ≠ [] → (dir_list_len skipped : Int) ≤ c)
    (hoff : (dir_list_len skipped : Int) ≠ c) :
    ∀ s t, skipped ++ rest = s ++ t → (dir_list_len s : Int) ≠ c := by
  intro s t hst hs
  rcases List.append_eq_append_iff.mp hst with ⟨a, hsa, hrest⟩ | ⟨a, hska, -⟩
  · cases a with
    | nil =>
      rw [hsa, List.append_nil] at hs
      exact hoff hs
    | cons b a2 =>
      have h1 := hnext b (a2 ++ t) hrest
      rw [hsa, dir_list_len_append] at hs
      simp only [dir_list_len, List.map_cons, List.sum_cons] at hs h1
      omega
  · by_cases hne : skipped = []
    · rw [hne] at hska
      have hs2 : s = [] := (List.append_eq_nil.mp hska.symm).1
      rw [hne] at hoff
      rw [hs2] at hs
      exact hoff hs
    · have h1 := hskipped hne
      rw [hska, dir_list_len_append] at h1 hoff
      omega

/-- The part of `vboxfs_readdir` after the enumeration, on a listing that is
the encoding of its entries: when the cursor is neither the start of a
buffer nor the end of the listing it is rejected; when it is, the entries
from there are copied as `copy_entries` does. -/
theorem readdir_cached_spec (hd : header) (hS : 0 < hd.sizeof_sffs_stat_t)
    (copyout : Nat → Nat → Int) (dir : vboxfs_node) (u : uio)
    (hwf : dir_list_wf hd dir.sf_dir_list) :
    ((∀ s t, dir.sf_dir_list = s ++ t → (dir_list_len s : Int) ≠ u.uio_offset) ∧
      readdir_cached hd copyout dir u = some (EINVAL, u, [])) ∨
    ∃ skipped rest, dir.sf_dir_list = skipped ++ rest ∧
      u.uio_offset = (dir_list_len skipped : Int) ∧
      readdir_cached hd copyout dir u =
        some (copy_entries copyout (dir_list_entries rest) u) := by
  obtain ⟨skipped, rest, hsplit, hsk, hnext, hskipped⟩ :=
    readdir_skip_spec u.uio_offset dir.sf_dir_list 0
  simp only [zero_add] at hsk hnext hskipped
  have hwf2 := (dir_list_wf_append hd skipped rest (hsplit ▸ hwf)).2
  by_cases hoff : (dir_list_len skipped : Int) = u.uio_offset
  · right
    refine ⟨skipped, rest, hsplit, hoff.symm, ?_⟩
    unfold readdir_cached
    simp only [hsk]
    cases rest with
    | nil => simp [hoff, readdir_copy, dir_list_entries, copy_entries]
    | cons b rest2 =>
      have hb : b.sf_len = (b.sf_entries.map (entry_len hd)).sum :=
        hwf2 b (List.mem_cons_self _ _)
      simp only [hoff, ne_eq, not_true_eq_false, if_false, sub_self]
      rw [readdir_copy_eq hd hS copyout dir (readdir_fuel (b :: rest2)) rest2 b []
        b.sf_entries 0 u [] rfl (by simpa using hb) (by simp)
        (fun x hx => hwf2 x (List.mem_cons_of_mem _ hx))
        (by simp only [readdir_fuel, List.map_cons, List.sum_cons]; omega)]
      simp [dir_list_entries]
  · left
    refine ⟨fun s t hst => readdir_skip_no_boundary u.uio_offset skipped rest hnext hskipped
      hoff s t (hsplit ▸ hst), ?_⟩
    unfold readdir_cached
    simp only [hsk]
    cases rest with
    | nil => simp [hoff]
    | cons b rest2 =>
      have hb : b.sf_len = (b.sf_entries.map (entry_len hd)).sum :=
        hwf2 b (List.mem_cons_self _ _)
      have hlt := hnext b rest2 rfl
      rw [hb] at hlt
      obtain ⟨off2, hw⟩ := readdir_walk_some hd u.uio_offset b.sf_entries
        (dir_list_len skipped : Int) (by omega)
      have hge := readdir_walk_ge hd u.uio_offset b.sf_entries _ off2 hw
      simp only [hoff, ne_eq, not_false_eq_true, if_true, hw, ge_iff_le, hge]

/-- What the part of `vboxfs_readdir` after the enumeration gives on a listing
that is the encoding of its entries, with room that is not negative. -/
theorem readdir_cached_facts (hd : header) (hS : 0 < hd.sizeof_sffs_stat_t)
    (copyout : Nat → Nat → Int) (dir : vboxfs_node) (u : uio)
    (hwf : dir_list_wf hd dir.sf_dir_list) (hres : 0 ≤ u.uio_resid) :
    ∃ t, readdir_cached hd copyout dir u = some t ∧
      t.2.1.uio_resid = u.uio_resid - (((t.2.2.map (fun d => d.d_reclen)).sum : Nat) : Int) ∧
      0 ≤ t.2.1.uio_resid ∧
      (((∀ s r, dir.sf_dir_list = s ++ r → (dir_list_len s : Int) ≠ u.uio_offset) ∧
          t.1 = EINVAL ∧ t.2.2 = [] ∧ t.2.1 = u) ∨
       ((∃ s r, dir.sf_dir_list = s ++ r ∧ (dir_list_len s : Int) = u.uio_offset) ∧
        ∃ pre taken post,
          dir_list_entries dir.sf_dir_list = pre ++ taken ++ post ∧
          (((pre.map (entry_len hd)).sum : Nat) : Int) = u.uio_offset ∧
          t.2.2 = taken.map (fun e => e.sf_entry) ∧
          t.2.1.iov_base = u.iov_base + (taken.map (fun e => e.sf_entry.d_reclen)).sum ∧
          (taken = [] → t.2.1 = u) ∧
          (∀ t1 e t2, taken = t1 ++ e :: t2 →
            copyout (u.iov_base + (t1.map (fun e => e.sf_entry.d_reclen)).sum)
              e.sf_entry.d_reclen = 0) ∧
          ((t.1 = 0 ∧ (post = [] ∨ ∃ e post2, post = e :: post2 ∧
              (e.sf_entry.d_reclen : Int) > t.2.1.uio_resid)) ∨
           (t.1 ≠ 0 ∧ ∃ e post2, post = e :: post2 ∧
              (e.sf_entry.d_reclen : Int) ≤ t.2.1.uio_resid ∧
              copyout t.2.1.iov_base e.sf_entry.d_reclen = t.1)))) := by
  rcases readdir_cached_spec hd hS copyout dir u hwf with
    ⟨hno, hrej⟩ | ⟨skipped, rest, hsplit, hoff, hc⟩
  · exact ⟨_, hrej, by simp, hres, Or.inl ⟨hno, rfl, rfl, rfl⟩⟩
  · obtain ⟨taken, post, hent, hcop, hr, hpos, hbase, hnone, hok, hstop⟩ :=
      copy_entries_spec copyout (dir_list_entries rest) u hres
    refine ⟨_, hc, ?_, hpos, Or.inr ⟨⟨skipped, rest, hsplit, hoff.symm⟩,
      dir_list_entries skipped, taken, post, ?_, ?_, hcop, hbase, hnone, hok, hstop⟩⟩
    · rw [hr, hcop, List.map_map]; rfl
    · rw [hsplit]
      simp only [dir_list_entries, List.flatMap_append] at hent ⊢
      rw [hent, List.append_assoc]
    · rw [hoff, dir_list_len_of_wf hd skipped (dir_list_wf_append hd skipped rest (hsplit ▸ hwf)).1]

/-- C16: on a listing that is the encoding of its entries (where an entry
takes at least one byte) and with room that is not negative, every
`vboxfs_readdir` returns, and the bytes it copied, the record lengths of the
copied records together, are what it took off the residual count, which
stays non-negative: they are at most the room there was.  It copies
nothing in two cases only, each with the request left as it was: the node
had no listing and the enumeration failed (the result is the provider's
error), or the cursor is neither the start of a buffer nor the end of the
listing (the result is `EINVAL`).  In every other case the copied records
are the whole records, in order and each put where the one before it ends
by a copy that succeeded, of the consecutive entries of the listing that
start at the cursor, and copying stopped with result 0 at the end of the
listing or before a record longer than the room left, or else before a
record that fits and whose copy failed, with the error of that copy. -/
theorem C16_readdir_copies_whole_entries (hd : header)
    (sfprov_readdir : Nat → String → Int × List sffs_dirents)
    (copyout : Nat → Nat → Int) (ap : vop_readdir_args)
    (hS : 0 < hd.sizeof_sffs_stat_t)
    (hwf : dir_list_wf hd (readdir_listing sfprov_readdir ap.a_vp.v_data))
    (hres : 0 ≤ ap.a_uio.uio_resid) :
    ∃ r, vboxfs_readdir hd sfprov_readdir copyout ap = some r ∧
      r.uio.uio_resid =
        ap.a_uio.uio_resid - (((r.copied.map (fun d => d.d_reclen)).sum : Nat) : Int) ∧
      0 ≤ r.uio.uio_resid ∧
      (((r.copied.map (fun d => d.d_reclen)).sum : Nat) : Int) ≤ ap.a_uio.uio_resid ∧
      (((ap.a_vp.v_data.sf_dir_list = [] ∧
          (sfprov_readdir ap.a_vp.v_data.vboxfsmp.sf_handle ap.a_vp.v_data.sf_path).1 ≠ 0) ∧
        r.error = (sfprov_readdir ap.a_vp.v_data.vboxfsmp.sf_handle ap.a_vp.v_data.sf_path).1 ∧
        r.copied = [] ∧ r.uio = ap.a_uio) ∨
       (¬ (ap.a_vp.v_data.sf_dir_list = [] ∧
          (sfprov_readdir ap.a_vp.v_data.vboxfsmp.sf_handle ap.a_vp.v_data.sf_path).1 ≠ 0) ∧
        (∀ s t, readdir_listing sfprov_readdir ap.a_vp.v_data = s ++ t →
          (dir_list_len s : Int) ≠ ap.a_uio.uio_offset) ∧
        r.error = EINVAL ∧ r.copied = [] ∧ r.uio = ap.a_uio) ∨
       (¬ (ap.a_vp.v_data.sf_dir_list = [] ∧
          (sfprov_readdir ap.a_vp.v_data.vboxfsmp.sf_handle ap.a_vp.v_data.sf_path).1 ≠ 0) ∧
        (∃ s t, readdir_listing sfprov_readdir ap.a_vp.v_data = s ++ t ∧
          (dir_list_len s : Int) = ap.a_uio.uio_offset) ∧
        ∃ pre taken post,
          dir_list_entries (readdir_listing sfprov_readdir ap.a_vp.v_data) =
            pre ++ taken ++ post ∧
          (((pre.map (entry_len hd)).sum : Nat) : Int) = ap.a_uio.uio_offset ∧
          r.copied = taken.map (fun e => e.sf_entry) ∧
          r.uio.iov_base =
            ap.a_uio.iov_base + (taken.map (fun e => e.sf_entry.d_reclen)).sum ∧
          (taken = [] → r.uio = ap.a_uio) ∧
          (∀ t1 e t2, taken = t1 ++ e :: t2 →
            copyout (ap.a_uio.iov_base + (t1.map (fun e => e.sf_entry.d_reclen)).sum)
              e.sf_entry.d_reclen = 0) ∧
          ((r.error = 0 ∧ (post = [] ∨ ∃ e post2, post = e :: post2 ∧
              (e.sf_entry.d_reclen : Int) > r.uio.uio_resid)) ∨
           (r.error ≠ 0 ∧ ∃ e post2, post = e :: post2 ∧
              (e.sf_entry.d_reclen : Int) ≤ r.uio.uio_resid ∧
              copyout r.uio.iov_base e.sf_entry.d_reclen = r.error)))) := by
  rw [vboxfs_readdir_eq]
  by_cases hl : ap.a_vp.v_data.sf_dir_list = []
  · have hlist : readdir_listing sfprov_readdir ap.a_vp.v_data =
        (sfprov_readdir ap.a_vp.v_data.vboxfsmp.sf_handle ap.a_vp.v_data.sf_path).2 := by
      unfold readdir_listing; rw [if_pos hl]
    rw [if_pos hl]
    by_cases he : (sfprov_readdir ap.a_vp.v_data.vboxfsmp.sf_handle ap.a_vp.v_data.sf_path).1 ≠ 0
    · rw [if_pos he]
      exact ⟨_, rfl, by simp, hres, by simpa using hres, Or.inl ⟨⟨hl, he⟩, rfl, rfl, rfl⟩⟩
    · rw [if_neg he]
      have hguard : ¬ (ap.a_vp.v_data.sf_dir_list = [] ∧
          (sfprov_readdir ap.a_vp.v_data.vboxfsmp.sf_handle ap.a_vp.v_data.sf_path).1 ≠ 0) :=
        fun h => he h.2
      obtain ⟨t, ht, h1, h2, h3⟩ := readdir_cached_facts hd hS copyout
        { ap.a_vp.v_data with sf_dir_list :=
            (sfprov_readdir ap.a_vp.v_data.vboxfsmp.sf_handle ap.a_vp.v_data.sf_path).2 }
        ap.a_uio (by rw [← hlist]; exact hwf) hres
      rw [ht, hlist]
      refine ⟨_, rfl, h1, h2, by simp only; omega, Or.inr ?_⟩
      rcases h3 with ⟨hno, he1, he2, he3⟩ | ⟨hyes, hcopy⟩
      · exact Or.inl ⟨hguard, hno, he1, he2, he3⟩
      · exact Or.inr ⟨hguard, hyes, hcopy⟩
  · have hlist : readdir_listing sfprov_readdir ap.a_vp.v_data = ap.a_vp.v_data.sf_dir_list := by
      unfold readdir_listing; rw [if_neg hl]
    rw [if_neg hl]
    have hguard : ¬ (ap.a_vp.v_data.sf_dir_list = [] ∧
        (sfprov_readdir ap.a_vp.v_data.vboxfsmp.sf_handle ap.a_vp.v_data.sf_path).1 ≠ 0) :=
      fun h => hl h.1
    obtain ⟨t, ht, h1, h2, h3⟩ := readdir_cached_facts hd hS copyout ap.a_vp.v_data
      ap.a_uio (by rw [← hlist]; exact hwf) hres
    rw [ht, hlist]
    refine ⟨_, rfl, h1, h2, by simp only; omega, Or.inr ?_⟩
    rcases h3 with ⟨hno, he1, he2, he3⟩ | ⟨hyes, hcopy⟩
    · exact Or.inl ⟨hguard, hno, he1, he2, he3⟩
    · exact Or.inr ⟨hguard, hyes, hcopy⟩

/-- C16 at a concrete request: the listing of "a" and "b" read from cursor 0
with room for 20 bytes.  What C16 says of the call leaves one outcome: result
0, the record of "a" copied and 4 bytes of room left. -/
theorem C16_readdir_copies_whole_entries_witness :
    ∃ r, vboxfs_readdir hd_sample readdir_fails copyout_ok (readdir_args dir_ab 0 20) = some r ∧
      r.error = 0 ∧ r.copied = [entry_a.sf_entry] ∧ r.uio.uio_resid = 4 := by
  obtain ⟨r, hr, hresid, hpos, -, hcase⟩ := C16_readdir_copies_whole_entries hd_sample
    readdir_fails copyout_ok (readdir_args dir_ab 0 20) (by decide) (by decide) (by decide)
  have hL : dir_list_entries (readdir_listing readdir_fails (readdir_args dir_ab 0 20).a_vp.v_data)
      = [entry_a, entry_b] := by decide
  have hroom : (readdir_args dir_ab 0 20).a_uio.uio_resid = 20 := rfl
  have hcur : (readdir_args dir_ab 0 20).a_uio.uio_offset = 0 := rfl
  rw [hroom] at hresid
  refine ⟨r, hr, ?_⟩
  rcases hcase with ⟨⟨hnil, -⟩, -⟩ | ⟨-, hno, -⟩ |
    ⟨-, -, pre, taken, post, hent, hpre, hcop, -, -, -, hstop⟩
  · exact absurd hnil (by decide)
  · exact absurd rfl (hno [] _ rfl)
  · rw [hL] at hent
    rw [hcur] at hpre
    have hpre0 : pre = [] := by
      cases pre with
      | nil => rfl
      | cons x pre2 =>
        exfalso
        simp only [List.map_cons, List.sum_cons, entry_len, hd_sample] at hpre
        omega
    subst hpre0
    simp only [List.nil_append] at hent
    have hcopy0 : ∀ base n, copyout_ok base n = 0 := fun _ _ => rfl
    have herr : r.error = 0 := by
      rcases hstop with ⟨h0, -⟩ | ⟨hne, e, post2, -, -, hfail⟩
      · exact h0
      · exact absurd (hfail.symm.trans (hcopy0 _ _)) hne
    have hstop2 : post = [] ∨ ∃ e post2, post = e :: post2 ∧
        (e.sf_entry.d_reclen : Int) > r.uio.uio_resid := by
      rcases hstop with ⟨-, h⟩ | ⟨hne, -⟩
      · exact h
      · exact absurd herr hne
    cases taken with
    | nil =>
      exfalso
      simp only [List.nil_append] at hent
      rw [hcop] at hresid
      simp only [List.map_nil, List.sum_nil, Nat.cast_zero, sub_zero] at hresid
      rcases hstop2 with h | ⟨e, post2, h, hbig⟩
      · rw [h] at hent; cases hent
      · rw [h] at hent
        simp only [List.cons.injEq] at hent
        rw [← hent.1, hresid] at hbig
        revert hbig
        decide
    | cons x taken2 =>
      simp only [List.cons_append, List.cons.injEq] at hent
      obtain ⟨hx, hrest⟩ := hent
      subst hx
      cases taken2 with
      | nil =>
        rw [hcop] at hresid
        refine ⟨herr, hcop, ?_⟩
        rw [hresid]
        decide
      | cons y taken3 =>
        exfalso
        simp only [List.cons_append, List.cons.injEq] at hrest
        obtain ⟨hy, -⟩ := hrest
        subst hy
        rw [hcop] at hresid
        simp only [List.map_cons, List.sum_cons, entry_a, entry_b] at hresid
        omega

/-! ## Theorems: the listing of a file node -/

end VBoxVfs
